import Mathlib

/-!
# KeyFinder audio decoder (`source/decoderlibav.cpp`)

A shallow embedding of `AudioFileDecoder`: its constructor, `free`,
`decodeNextAudioPacket` and `decodePacket`, over a model of the libav calls
they make.  The libav backend is an oracle: every value a libav call hands
back is a field of the structures below, so the theorems range over every
backend behaviour.
-/

namespace KeyFinder

/-! ## Machine integers -/

/-- Value of a C++ `int` expression: the two's complement reading of the low 32 bits. -/
def toInt32 (x : Int) : Int := (x + 2 ^ 31) % 2 ^ 32 - 2 ^ 31

/-- Value of `static_cast<unsigned int>(x)`. -/
def toUInt32 (x : Int) : Int := x % 2 ^ 32

/-! ## libav data, as far as the decoder reads it -/

/-- Contents of a scratch buffer read through an `int16_t*`: word index to value. -/
abbrev Buffer := Nat → Int

/-- The `AVSampleFormat` enumeration of libavutil (valid formats of an opened codec). -/
inductive AVSampleFormat
  | U8 | S16 | S32 | FLT | DBL | U8P | S16P | S32P | FLTP | DBLP
  deriving DecidableEq

/-- The libavutil table behind `av_get_bytes_per_sample`. -/
def av_get_bytes_per_sample : AVSampleFormat → Int
  | .U8 => 1 | .S16 => 2 | .S32 => 4 | .FLT => 4 | .DBL => 8
  | .U8P => 1 | .S16P => 2 | .S32P => 4 | .FLTP => 4 | .DBLP => 8

/-- The libavutil constant `AVMEDIA_TYPE_AUDIO`. -/
def AVMEDIA_TYPE_AUDIO : Int := 1

/-- The libavutil constant `AV_TIME_BASE`. -/
def AV_TIME_BASE : Int := 1000000

/-- An `AVCodec`; only `long_name` is read. -/
structure AVCodec where
  long_name : String
  deriving DecidableEq

/-- The fields of `AVCodecContext` the decoder reads. -/
structure AVCodecContext where
  codec_type : Int
  codec_id : Int
  sample_rate : Int
  channels : Int
  sample_fmt : AVSampleFormat
  deriving DecidableEq

/-- An `AVStream`; `codec` is its codec context. -/
structure AVStream where
  codec : AVCodecContext
  deriving DecidableEq

/-- What one call of `avcodec_decode_audio4` hands back: its return value, the
value it leaves in `dataSize`, and the contents of `frameBuffer` afterwards. -/
structure DecodeResult where
  bytesConsumed : Int
  dataSize : Int
  frame : Buffer

/-- An `AVPacket`.  A non-null `data` pointer is abstracted to what the decoder
answers on the successive `avcodec_decode_audio4` calls made on this payload
(call number to result); `none` is the null pointer. -/
structure AVPacket where
  stream_index : Int
  data : Option (Nat → DecodeResult)
  size : Int

/-- Effect of `av_free_packet`: `data` becomes null and `size` zero. -/
def av_free_packet (p : AVPacket) : AVPacket :=
  { p with data := none, size := 0 }

/-- A `ReSampleContext`: `audio_resample` on an input buffer and a sample count
gives a return value and the contents of the output buffer. -/
structure ReSampleContext where
  audio_resample : Buffer → Int → Int × Buffer

/-- An `AVFormatContext`.  `pending` lists what the coming `av_read_frame` calls
hand back (return value and packet); once it is empty the container is
exhausted and `av_read_frame` answers a negative value. -/
structure AVFormatContext where
  streams : List AVStream
  duration : Int
  pending : List (Int × AVPacket)

/-! ## KeyFinder::AudioData -/

/-- Modelled from the spec: `KeyFinder::AudioData` (header `keyfinder/audiodata.h`
is not among the sources): frame rate, channel count, an ordered sample store
and a write cursor.  A sample is the `double` of an `int16_t`, kept as the
integer it holds. -/
structure AudioData where
  frameRate : Int
  channels : Int
  samples : List Int
  writeIterator : Nat
  deriving DecidableEq

namespace AudioData

/-- Modelled from the spec: the record built by `new KeyFinder::AudioData()`, no samples. -/
def new : AudioData := ⟨0, 0, [], 0⟩

/-- Modelled from the spec: `AudioData::setFrameRate` tags the record with a frame rate. -/
def setFrameRate (a : AudioData) (r : Int) : AudioData := { a with frameRate := r }

/-- Modelled from the spec: `AudioData::setChannels` tags the record with a channel count. -/
def setChannels (a : AudioData) (c : Int) : AudioData := { a with channels := c }

/-- Modelled from the spec: `AudioData::getSampleCount`, the current length. -/
def getSampleCount (a : AudioData) : Nat := a.samples.length

/-- Modelled from the spec: `AudioData::addToSampleCount` grows the store by `n` zero
samples at the end. -/
def addToSampleCount (a : AudioData) (n : Nat) : AudioData :=
  { a with samples := a.samples ++ List.replicate n 0 }

/-- Modelled from the spec: `AudioData::resetIterators` puts the write cursor at the
beginning of the store. -/
def resetIterators (a : AudioData) : AudioData := { a with writeIterator := 0 }

/-- Modelled from the spec: `AudioData::advanceWriteIterator` moves the write cursor `n`
samples on. -/
def advanceWriteIterator (a : AudioData) (n : Nat) : AudioData :=
  { a with writeIterator := a.writeIterator + n }

/-- Modelled from the spec: `AudioData::setSampleAtWriteIterator` stores a sample at the
write cursor. -/
def setSampleAtWriteIterator (a : AudioData) (v : Int) : AudioData :=
  { a with samples := a.samples.set a.writeIterator v }

end AudioData

/-! ## The decoder session -/

/-- The messages of `GuiStrings` a `KeyFinder::Exception` is thrown with. -/
inductive Exception
  | libavCouldNotOpenFile (openInputResult : Int)
  | libavCouldNotFindStreamInformation
  | libavCouldNotFindAudioStream
  | durationExceedsPreference (minutes seconds maxDuration : Int)
  | libavUnsupportedCodec
  | libavCouldNotOpenCodec (long_name : String) (codecOpenResult : Int)
  | libavCouldNotCreateResampleContext
  | libavTooManyBadPackets (badPacketThreshold : Int)
  | libavCouldNotResample
  deriving DecidableEq

/-- `const int max_bad_packets = 100;` -/
def max_bad_packets : Int := 100

/-- The members of `AudioFileDecoder`; a pointer member is an `Option`, `none`
being `nullptr`.  The scratch buffers and the path string carry no content of
their own here: their release is recorded by `free`. -/
structure AudioFileDecoder where
  audioStream : Int
  badPacketCount : Int
  badPacketThreshold : Int
  codec : Option AVCodec
  fCtx : Option AVFormatContext
  cCtx : Option AVCodecContext
  rsCtx : Option ReSampleContext

/-! ## decodePacket -/

/-- The `for` loop of `decodePacket` that copies `dataBuffer[i]` to the write
iterator: `k` iterations are left, `i` is the loop variable. -/
def writeSamples (dataBuffer : Buffer) : Nat → Nat → AudioData → AudioData
  | 0, _, a => a
  | k + 1, i, a =>
    writeSamples dataBuffer k (i + 1)
      ((a.setSampleAtWriteIterator (dataBuffer i)).advanceWriteIterator 1)

/-- How one pass through the body of the `while` loop of `decodePacket` ends. -/
inductive PacketStep
  | next (size : Int) (a : AudioData)
  | ret (b : Bool) (a : AudioData)
  | throw (e : Exception)
  | nullDeref

/-- One pass through the body of `while (tempPacket.size > 0)`, at a point where
`tempPacket.size` is `size` and the decoder answers `r`. -/
def decodePacketBody (s : AudioFileDecoder) (r : DecodeResult) (size : Int)
    (a : AudioData) : PacketStep :=
  match s.cCtx with
  | none => .nullDeref
  | some cCtx =>
    if r.bytesConsumed < 0 then .ret false a
    else
      -- no overflow: size > 0 and 0 ≤ bytesConsumed, both of type int
      let size1 := size - r.bytesConsumed
      if r.dataSize ≤ 0 then .next size1 a
      else
        let newSamplesDecoded := Int.tdiv r.dataSize (av_get_bytes_per_sample cCtx.sample_fmt)
        let append (dataBuffer : Buffer) : PacketStep :=
          let oldSampleCount := a.getSampleCount
          let a1 := a.addToSampleCount newSamplesDecoded.toNat
          let a2 := a1.resetIterators
          let a3 := a2.advanceWriteIterator oldSampleCount
          .next size1 (writeSamples dataBuffer newSamplesDecoded.toNat 0 a3)
        if cCtx.sample_fmt ≠ AVSampleFormat.S16 then
          match s.rsCtx with
          | none => .nullDeref
          | some rsCtx =>
            let res := rsCtx.audio_resample r.frame newSamplesDecoded
            if res.1 < 0 then .throw Exception.libavCouldNotResample
            else append res.2
        else append r.frame

/-- How `decodePacket` ends: it returns a `bool`, throws, or dereferences null. -/
inductive PacketResult
  | ret (b : Bool) (a : AudioData)
  | throw (e : Exception)
  | nullDeref

/-- The `while (tempPacket.size > 0)` loop of `decodePacket`; `i` counts the
decode calls already made on the packet.  `none`: the fuel ran out. -/
def decodePacketLoop (s : AudioFileDecoder) (d : Nat → DecodeResult) :
    Nat → Nat → Int → AudioData → Option PacketResult
  | 0, _, _, _ => none
  | fuel + 1, i, size, a =>
    if size > 0 then
      match decodePacketBody s (d i) size a with
      | .next size1 a1 => decodePacketLoop s d fuel (i + 1) size1 a1
      | .ret b a1 => some (.ret b a1)
      | .throw e => some (.throw e)
      | .nullDeref => some .nullDeref
    else some (.ret true a)

/-- `AudioFileDecoder::decodePacket(originalPacket, audio)`. -/
def decodePacket (s : AudioFileDecoder) (fuel : Nat) (originalPacket : AVPacket)
    (a : AudioData) : Option PacketResult :=
  match originalPacket.data with
  | none => if originalPacket.size > 0 then some .nullDeref else some (.ret true a)
  | some d => decodePacketLoop s d fuel 0 originalPacket.size a

/-! ## decodeNextAudioPacket -/

/-- The `do … while (avpkt.data == nullptr)` loop of `decodeNextAudioPacket`
over what `av_read_frame` will hand back: the packet the loop leaves in `avpkt`
(`none` when `av_read_frame` answered a negative value, which makes the
function return the null `audio`) and what is left to read. -/
def readAudioPacket (audioStream : Int) :
    List (Int × AVPacket) → Option AVPacket × List (Int × AVPacket)
  | [] => (none, [])
  | (readResult, pkt) :: rest =>
    if readResult < 0 then (none, rest)
    else
      let avpkt := if pkt.stream_index ≠ audioStream then av_free_packet pkt else pkt
      match avpkt.data with
      | none => readAudioPacket audioStream rest
      | some _ => (some avpkt, rest)

/-- How a call of `decodeNextAudioPacket` ends: it returns `nullptr`, returns a
record, throws, or dereferences a null member. -/
inductive CallResult
  | endOfStream
  | record (a : AudioData)
  | throw (e : Exception)
  | nullDeref
  deriving DecidableEq

/-- `AudioFileDecoder::decodeNextAudioPacket()`: the result of the call and the
session after it.  `none`: the fuel given to the loop of `decodePacket` ran out. -/
def decodeNextAudioPacket (fuel : Nat) (s : AudioFileDecoder) :
    Option (CallResult × AudioFileDecoder) :=
  match s.fCtx with
  | none => some (.nullDeref, s)
  | some fCtx =>
    match readAudioPacket s.audioStream fCtx.pending with
    | (none, rest) => some (.endOfStream, { s with fCtx := some { fCtx with pending := rest } })
    | (some avpkt, rest) =>
      let s1 := { s with fCtx := some { fCtx with pending := rest } }
      match s.cCtx with
      | none => some (.nullDeref, s1)
      | some cCtx =>
        let audio := (AudioData.new.setFrameRate (toUInt32 cCtx.sample_rate)).setChannels
          cCtx.channels
        match decodePacket s1 fuel avpkt audio with
        | none => none
        | some (.ret true a) => some (.record a, s1)
        | some (.ret false a) =>
          let s2 := { s1 with badPacketCount := toInt32 (s1.badPacketCount + 1) }
          if s2.badPacketCount > s2.badPacketThreshold then
            some (.throw (Exception.libavTooManyBadPackets s2.badPacketThreshold), s2)
          else some (.record a, s2)
        | some (.throw e) => some (.throw e, s1)
        | some .nullDeref => some (.nullDeref, s1)

/-! ## Construction and teardown -/

/-- The backend resources a session holds. -/
inductive Resource
  | filePathCh | frameBuffer | frameBufferConverted | fCtx | cCtx | rsCtx
  deriving DecidableEq

/-- The trace of a session: a resource is acquired (`qstrdup`, `av_malloc`,
`avformat_open_input`, `avcodec_open2`, `av_audio_resample_init`), `free()` is
entered, a resource is released (`delete[]`, `av_free`, `av_close_input_file`,
`avcodec_close`, `audio_resample_close`). -/
inductive Event
  | acquire (r : Resource)
  | enterFree
  | release (r : Resource)
  deriving DecidableEq

/-- The libav calls of construction and teardown, as an oracle.
`avformat_open_input` gives its return value and the context it stores in
`fCtx` when that value is 0 (on failure libav leaves the pointer null); the
context already holds what `avformat_find_stream_info` fills in. -/
structure LibAV where
  avformat_open_input : String → Int × AVFormatContext
  avformat_find_stream_info : AVFormatContext → Int
  avcodec_find_decoder : Int → Option AVCodec
  avcodec_open2 : AVCodecContext → AVCodec → Int
  av_audio_resample_init : Int → Int → Int → Int → AVSampleFormat → AVSampleFormat →
    Option ReSampleContext
  avcodec_close : AVCodecContext → Int

/-- How `free()` ends, with the trace extended by what it did. -/
inductive FreeResult
  | done (log : List Event)
  | nullDeref (log : List Event)
  deriving DecidableEq

/-- `AudioFileDecoder::free()`.  `qCritical` reads `codec->long_name`, which
dereferences `codec`. -/
def AudioFileDecoder.free (av : LibAV) (s : AudioFileDecoder) (log : List Event) :
    FreeResult :=
  let log1 := log ++ [Event.enterFree, Event.release Resource.frameBuffer,
    Event.release Resource.frameBufferConverted]
  let log2 := if s.rsCtx.isSome then log1 ++ [Event.release Resource.rsCtx] else log1
  let rest (log3 : List Event) : FreeResult :=
    let log4 := if s.fCtx.isSome then log3 ++ [Event.release Resource.fCtx] else log3
    .done (log4 ++ [Event.release Resource.filePathCh])
  match s.cCtx with
  | none => rest log2
  | some cCtx =>
    let codecCloseResult := av.avcodec_close cCtx
    let log3 := log2 ++ [Event.release Resource.cCtx]
    if codecCloseResult < 0 then
      match s.codec with
      | none => .nullDeref log3
      | some _ => rest log3
    else rest log3

/-- How the constructor ends, with the trace of the session so far. -/
inductive ConstructResult
  | ok (s : AudioFileDecoder) (log : List Event)
  | throw (e : Exception) (log : List Event)
  | nullDeref (log : List Event)

/-- The `free(); throw KeyFinder::Exception(…);` pair of each failing step. -/
def freeAndThrow (av : LibAV) (s : AudioFileDecoder) (log : List Event) (e : Exception) :
    ConstructResult :=
  match s.free av log with
  | .done log1 => .throw e log1
  | .nullDeref log1 => .nullDeref log1

/-- The body of the stream `for` loop of the constructor: `n` is
`static_cast<signed>(fCtx->nb_streams)`, the list holds `streams[i]` onwards;
the value is `audioStream` after the loop. -/
def scanStreams (n : Int) : List AVStream → Int → Int
  | [], _ => -1
  | st :: rest, i =>
    if i < n then
      if st.codec.codec_type = AVMEDIA_TYPE_AUDIO then i else scanStreams n rest (i + 1)
    else -1

/-- The stream `for` loop of the constructor, from `audioStream = -1`. -/
def findAudioStream (streams : List AVStream) : Int :=
  scanStreams (toInt32 streams.length) streams 0

/-- `int durationSeconds = fCtx->duration / AV_TIME_BASE;` -/
def durationSeconds (duration : Int) : Int := toInt32 (Int.tdiv duration AV_TIME_BASE)

/-- `int durationMinutes = durationSeconds / seconds_in_minute;` -/
def durationMinutes (duration : Int) : Int := Int.tdiv (durationSeconds duration) 60

/-- The condition of the duration `if` of the constructor. -/
def durationExceeds (duration maxDuration : Int) : Bool :=
  decide (durationMinutes duration < 720) &&
    decide (durationSeconds duration > toInt32 (maxDuration * 60))

/-- `AudioFileDecoder::AudioFileDecoder(filePath, maxDuration)`. -/
def AudioFileDecoder.construct (av : LibAV) (filePath : String) (maxDuration : Int) :
    ConstructResult :=
  let s0 : AudioFileDecoder := ⟨-1, 0, max_bad_packets, none, none, none, none⟩
  let log0 := [Event.acquire Resource.filePathCh, Event.acquire Resource.frameBuffer,
    Event.acquire Resource.frameBufferConverted]
  let opened := av.avformat_open_input filePath
  let openInputResult := opened.1
  if openInputResult ≠ 0 then
    freeAndThrow av s0 log0 (Exception.libavCouldNotOpenFile openInputResult)
  else
    let fCtx := opened.2
    let s1 := { s0 with fCtx := some fCtx }
    let log1 := log0 ++ [Event.acquire Resource.fCtx]
    if av.avformat_find_stream_info fCtx < 0 then
      freeAndThrow av s1 log1 Exception.libavCouldNotFindStreamInformation
    else
      let s2 := { s1 with audioStream := findAudioStream fCtx.streams }
      if s2.audioStream = -1 then
        freeAndThrow av s2 log1 Exception.libavCouldNotFindAudioStream
      else if durationExceeds fCtx.duration maxDuration then
        freeAndThrow av s2 log1
          (Exception.durationExceedsPreference (durationMinutes fCtx.duration)
            (Int.tmod (durationSeconds fCtx.duration) 60) maxDuration)
      else
        match fCtx.streams.get? s2.audioStream.toNat with
        | none => .nullDeref log1
        | some st =>
          let cCtx := st.codec
          let s3 := { s2 with cCtx := some cCtx, codec := av.avcodec_find_decoder cCtx.codec_id }
          match s3.codec with
          | none => freeAndThrow av s3 log1 Exception.libavUnsupportedCodec
          | some codec =>
            let codecOpenResult := av.avcodec_open2 cCtx codec
            if codecOpenResult < 0 then
              freeAndThrow av s3 log1
                (Exception.libavCouldNotOpenCodec codec.long_name codecOpenResult)
            else
              let log2 := log1 ++ [Event.acquire Resource.cCtx]
              let rsCtx := av.av_audio_resample_init cCtx.channels cCtx.channels
                cCtx.sample_rate cCtx.sample_rate AVSampleFormat.S16 cCtx.sample_fmt
              let s4 := { s3 with rsCtx := rsCtx }
              match s4.rsCtx with
              | none => freeAndThrow av s4 log2 Exception.libavCouldNotCreateResampleContext
              | some _ => .ok s4 (log2 ++ [Event.acquire Resource.rsCtx])

/-! ## Specification-side notions -/

/-- Number of samples a decode call emits: the bytes it reports in `dataSize` over the bytes
per sample of the native format. -/
def chunkLength (c : AVCodecContext) (r : DecodeResult) : Nat :=
  (r.dataSize / av_get_bytes_per_sample c.sample_fmt).toNat

/-- The format-conversion call made for the decode result `r` reports an error: samples were
emitted, the native format is not signed 16-bit, and `audio_resample` answers a negative
value. -/
def resampleFails (c : AVCodecContext) (rs : ReSampleContext) (r : DecodeResult) : Prop :=
  0 < r.dataSize ∧ c.sample_fmt ≠ AVSampleFormat.S16 ∧
    (rs.audio_resample r.frame (r.dataSize / av_get_bytes_per_sample c.sample_fmt)).1 < 0

/-- The chunk of samples a decode call contributes: nothing when `dataSize` is not positive,
the first `chunkLength` words of `frameBuffer` when the native format is signed 16-bit,
and otherwise the first `chunkLength` words the normalizer writes. -/
def chunk (c : AVCodecContext) (rs : ReSampleContext) (r : DecodeResult) : List Int :=
  if r.dataSize ≤ 0 then []
  else if c.sample_fmt = AVSampleFormat.S16 then (List.range (chunkLength c r)).map r.frame
  else (List.range (chunkLength c r)).map
    (rs.audio_resample r.frame (r.dataSize / av_get_bytes_per_sample c.sample_fmt)).2

/-- Concatenation, in call order, of the chunks of the first `k` decode calls on a packet. -/
def chunks (c : AVCodecContext) (rs : ReSampleContext) (d : Nat → DecodeResult) : Nat → List Int
  | 0 => []
  | k + 1 => chunks c rs d k ++ chunk c rs (d k)

/-- Bytes of the packet left after the first `k` decode calls. -/
def remaining (d : Nat → DecodeResult) (size : Int) : Nat → Int
  | 0 => size
  | k + 1 => remaining d size k - (d k).bytesConsumed

/-- The session holds a container, a codec context and a resample context, as after a
successful construction. -/
def Ready (s : AudioFileDecoder) (f : AVFormatContext) (c : AVCodecContext)
    (rs : ReSampleContext) : Prop :=
  s.fCtx = some f ∧ s.cCtx = some c ∧ s.rsCtx = some rs

/-- The packet `pkt`, with payload `d`, is the next one of the selected stream: every read
before it succeeds with a packet of another stream, and `rest` is what remains to be
read after it. -/
def NextPacket (audioStream : Int) (pending : List (Int × AVPacket)) (pkt : AVPacket)
    (d : Nat → DecodeResult) (rest : List (Int × AVPacket)) : Prop :=
  ∃ pre readResult, pending = pre ++ (readResult, pkt) :: rest ∧
    (∀ x ∈ pre, 0 ≤ x.1 ∧ x.2.stream_index ≠ audioStream) ∧
    0 ≤ readResult ∧ pkt.stream_index = audioStream ∧ pkt.data = some d

/-- The session with its container advanced so that `rest` is what remains to be read. -/
def AudioFileDecoder.withPending (s : AudioFileDecoder) (f : AVFormatContext)
    (rest : List (Int × AVPacket)) : AudioFileDecoder :=
  { s with fCtx := some { f with pending := rest } }

/-- The session with `badPacketCount` set to `n`. -/
def AudioFileDecoder.withBadPacketCount (s : AudioFileDecoder) (n : Int) : AudioFileDecoder :=
  { s with badPacketCount := n }

/-- The record `decodeNextAudioPacket` builds before decoding: tagged with the frame rate
and channel count of the codec context, no samples. -/
def freshAudio (c : AVCodecContext) : AudioData :=
  ⟨toUInt32 c.sample_rate, c.channels, [], 0⟩

/-- What `decodePacket` returns in the next call of `decodeNextAudioPacket`, when that call
reaches it. -/
def nextDecodePacket (fuel : Nat) (s : AudioFileDecoder) : Option PacketResult :=
  match s.fCtx, s.cCtx with
  | some f, some c =>
    match readAudioPacket s.audioStream f.pending with
    | (some avpkt, rest) => decodePacket (s.withPending f rest) fuel avpkt (freshAudio c)
    | (none, _) => none
  | _, _ => none

/-- The packet of the next call fails to decode: `decodePacket` returns `false`. -/
def packetFails (fuel : Nat) (s : AudioFileDecoder) : Bool :=
  match nextDecodePacket fuel s with
  | some (.ret false _) => true
  | _ => false

/-- The session after `n` successive calls of `decodeNextAudioPacket`. -/
def sessionAfter (fuel : Nat) : Nat → AudioFileDecoder → Option AudioFileDecoder
  | 0, s => some s
  | n + 1, s =>
    match decodeNextAudioPacket fuel s with
    | none => none
    | some (_, s1) => sessionAfter fuel n s1

/-- Number of calls, among the next `n`, whose packet fails to decode. -/
def failedPackets (fuel : Nat) : Nat → AudioFileDecoder → Nat
  | 0, _ => 0
  | n + 1, s =>
    (if packetFails fuel s then 1 else 0) +
      match decodeNextAudioPacket fuel s with
      | none => 0
      | some (_, s1) => failedPackets fuel n s1

/-- The trace `free()` leaves. -/
def FreeResult.log : FreeResult → List Event
  | .done l => l
  | .nullDeref l => l

/-- The trace of a whole session: the constructor, followed by the destructor (which calls
`free()`) when construction succeeded. -/
def ConstructResult.trace (av : LibAV) : ConstructResult → List Event
  | .ok s log => (s.free av log).log
  | .throw _ log => log
  | .nullDeref log => log

/-- The trace of the session built from `filePath`. -/
def sessionTrace (av : LibAV) (filePath : String) (maxDuration : Int) : List Event :=
  (AudioFileDecoder.construct av filePath maxDuration).trace av

/-- The exception a construction ended with, if any. -/
def ConstructResult.exception : ConstructResult → Option Exception
  | .throw e _ => some e
  | _ => none

/-! ## Concrete backends and sessions -/

/-- A video stream. -/
def videoStream : AVStream := ⟨⟨0, 13, 0, 0, AVSampleFormat.U8⟩⟩

/-- A stereo audio stream whose native format is signed 16-bit. -/
def s16Stream : AVStream := ⟨⟨ AVMEDIA_TYPE_AUDIO, 86017, 44100, 2, AVSampleFormat.S16⟩⟩

/-- A stereo audio stream whose native format is float. -/
def fltStream : AVStream := ⟨⟨ AVMEDIA_TYPE_AUDIO, 86018, 48000, 2, AVSampleFormat.FLT⟩⟩

/-- A payload of two frames: the first decode call consumes 2 bytes and emits 4 bytes of
samples, the second consumes 2 bytes and emits nothing. -/
def twoFrames : Nat → DecodeResult :=
  fun j => if j = 0 then ⟨2, 4, fun i => 7 + i⟩ else ⟨2, 0, fun _ => 0⟩

/-- A payload whose first decode call emits 4 bytes of samples and whose second fails. -/
def frameThenError : Nat → DecodeResult :=
  fun j => if j = 0 then ⟨2, 4, fun i => 7 + i⟩ else ⟨-1, 0, fun _ => 0⟩

/-- A payload on which every decode call fails. -/
def errorOnly : Nat → DecodeResult := fun _ => ⟨-1, 0, fun _ => 0⟩

/-- A packet of stream 0. -/
def videoPacket : AVPacket := ⟨0, some errorOnly, 4⟩

/-- A packet of stream 1 that decodes. -/
def goodPacket : AVPacket := ⟨1, some twoFrames, 4⟩

/-- A packet of stream 1 whose second decode call fails. -/
def splitPacket : AVPacket := ⟨1, some frameThenError, 4⟩

/-- A packet of stream 1 whose first decode call fails. -/
def badPacket : AVPacket := ⟨1, some errorOnly, 4⟩

/-- A normalizer that copies its input. -/
def copyResampler : ReSampleContext := ⟨fun b n => (n, b)⟩

/-- A normalizer that reports an error. -/
def failingResampler : ReSampleContext := ⟨fun b _ => (-1, b)⟩

/-- A registered decoder. -/
def mp3 : AVCodec := ⟨"MP3 (MPEG audio layer 3)"⟩

/-- A backend on which the container opens and probes as `ctx`, the codec opens, the
decoder lookup answers `codec`, the resampler initialisation answers `rsCtx` and
`avcodec_close` answers `codecCloseResult`. -/
def exampleLibAV (ctx : AVFormatContext) (codec : Option AVCodec)
    (rsCtx : Option ReSampleContext) (codecCloseResult : Int) : LibAV :=
  ⟨fun _ => (0, ctx), fun _ => 0, fun _ => codec, fun _ _ => 0, fun _ _ _ _ _ _ => rsCtx,
    fun _ => codecCloseResult⟩

/-- A three-minute container with a video stream and a signed 16-bit audio stream. -/
def s16Container (pending : List (Int × AVPacket)) : AVFormatContext :=
  ⟨[videoStream, s16Stream], 180000000, pending⟩

/-- A session on `s16Container`, as the constructor builds it, at a given bad-packet count. -/
def s16Session (badPacketCount : Int) (pending : List (Int × AVPacket)) : AudioFileDecoder :=
  ⟨1, badPacketCount, max_bad_packets, some mp3, some (s16Container pending),
    some s16Stream.codec, some copyResampler⟩

/-- A session on a float audio stream whose normalizer reports an error. -/
def fltSession (pending : List (Int × AVPacket)) : AudioFileDecoder :=
  ⟨1, 0, max_bad_packets, some mp3, some ⟨[videoStream, fltStream], 180000000, pending⟩,
    some fltStream.codec, some failingResampler⟩

/-- A container whose metadata reports 4294967396 seconds (2^32 + 100). -/
def overlongContainer : AVFormatContext := ⟨[s16Stream], 4294967396000000, []⟩

/-- The trace of a successful construction. -/
def constructLog : List Event :=
  [Event.acquire Resource.filePathCh, Event.acquire Resource.frameBuffer,
    Event.acquire Resource.frameBufferConverted, Event.acquire Resource.fCtx,
    Event.acquire Resource.cCtx, Event.acquire Resource.rsCtx]

/-! ## Lemmas -/

theorem bytes_per_sample_pos (fmt : AVSampleFormat) : 0 < av_get_bytes_per_sample fmt := by
  cases fmt <;> decide

/-- The copy loop overwrites the `k` zero samples that follow the write cursor with
`dataBuffer[i]`, `dataBuffer[i+1]`, … and leaves the tags alone. -/
theorem writeSamples_spec (buf : Buffer) :
    ∀ (k i : Nat) (a : AudioData) (l : List Int), a.writeIterator = l.length →
      a.samples = l ++ List.replicate k 0 →
      (writeSamples buf k i a).samples = l ++ (List.range' i k).map buf ∧
      (writeSamples buf k i a).frameRate = a.frameRate ∧
      (writeSamples buf k i a).channels = a.channels := by
  intro k
  induction k with
  | zero =>
    intro i a l _ hs
    simp [writeSamples, hs]
  | succ k ih =>
    intro i a l hw hs
    have h := ih (i + 1) ((a.setSampleAtWriteIterator (buf i)).advanceWriteIterator 1)
      (l ++ [buf i])
      (by simp [AudioData.setSampleAtWriteIterator, AudioData.advanceWriteIterator, hw])
      (by
        simp [AudioData.setSampleAtWriteIterator, AudioData.advanceWriteIterator, hw, hs,
          List.replicate_succ])
    simp only [writeSamples]
    refine ⟨?_, ?_, ?_⟩
    · rw [h.1]; simp [List.range'_succ]
    · rw [h.2.1]; rfl
    · rw [h.2.2]; rfl

theorem tdiv_bytes (c : AVCodecContext) (r : DecodeResult) (h : 0 < r.dataSize) :
    Int.tdiv r.dataSize (av_get_bytes_per_sample c.sample_fmt) =
      r.dataSize / av_get_bytes_per_sample c.sample_fmt :=
  Int.tdiv_eq_ediv (le_of_lt h) (le_of_lt (bytes_per_sample_pos _))

/-- A decode call that reports failure makes the loop body return `false` with the record as
it is. -/
theorem body_fail (s : AudioFileDecoder) (c : AVCodecContext) (hc : s.cCtx = some c)
    (r : DecodeResult) (size : Int) (a : AudioData) (h : r.bytesConsumed < 0) :
    decodePacketBody s r size a = .ret false a := by
  simp [decodePacketBody, hc, h]

/-- A format-conversion error makes the loop body throw. -/
theorem body_throw (s : AudioFileDecoder) (c : AVCodecContext) (rs : ReSampleContext)
    (hc : s.cCtx = some c) (hrs : s.rsCtx = some rs)
    (r : DecodeResult) (size : Int) (a : AudioData) (h : 0 ≤ r.bytesConsumed)
    (hf : resampleFails c rs r) :
    decodePacketBody s r size a = .throw Exception.libavCouldNotResample := by
  obtain ⟨h1, h2, h3⟩ := hf
  simp [decodePacketBody, hc, hrs, not_lt.mpr h, not_le.mpr h1, h2, tdiv_bytes c r h1, h3]

/-- A decode call that succeeds, with no conversion error, appends its chunk and moves on
with the consumed bytes taken off the size. -/
theorem body_next (s : AudioFileDecoder) (c : AVCodecContext) (rs : ReSampleContext)
    (hc : s.cCtx = some c) (hrs : s.rsCtx = some rs)
    (r : DecodeResult) (size : Int) (a : AudioData) (h : 0 ≤ r.bytesConsumed)
    (hf : ¬ resampleFails c rs r) :
    ∃ a1, decodePacketBody s r size a = .next (size - r.bytesConsumed) a1 ∧
      a1.samples = a.samples ++ chunk c rs r ∧ a1.frameRate = a.frameRate ∧
      a1.channels = a.channels := by
  by_cases hds : r.dataSize ≤ 0
  · exact ⟨a, by simp [decodePacketBody, hc, not_lt.mpr h, hds], by simp [chunk, hds], rfl, rfl⟩
  · have hpos : 0 < r.dataSize := not_le.mp hds
    have key : ∀ buf : Buffer,
        let a3 := ((a.addToSampleCount (chunkLength c r)).resetIterators).advanceWriteIterator
          a.getSampleCount
        (writeSamples buf (chunkLength c r) 0 a3).samples =
            a.samples ++ (List.range (chunkLength c r)).map buf ∧
          (writeSamples buf (chunkLength c r) 0 a3).frameRate = a.frameRate ∧
          (writeSamples buf (chunkLength c r) 0 a3).channels = a.channels := by
      intro buf a3
      have := writeSamples_spec buf (chunkLength c r) 0 a3 a.samples
        (by simp [a3, AudioData.addToSampleCount, AudioData.resetIterators,
          AudioData.advanceWriteIterator, AudioData.getSampleCount])
        (by simp [a3, AudioData.addToSampleCount, AudioData.resetIterators,
          AudioData.advanceWriteIterator])
      rw [List.range_eq_range']
      exact this
    by_cases hfmt : c.sample_fmt = AVSampleFormat.S16
    · refine ⟨writeSamples r.frame (chunkLength c r) 0
          (((a.addToSampleCount (chunkLength c r)).resetIterators).advanceWriteIterator
            a.getSampleCount), ?_, ?_, ?_, ?_⟩
      · simp only [decodePacketBody, hc, not_lt.mpr h, hds, if_false, tdiv_bytes c r hpos]
        simp only [hfmt, ne_eq, not_true_eq_false, if_false, chunkLength]
      · simpa [chunk, hds, hfmt] using (key r.frame).1
      · exact (key r.frame).2.1
      · exact (key r.frame).2.2
    · have hres : ¬ (rs.audio_resample r.frame
          (r.dataSize / av_get_bytes_per_sample c.sample_fmt)).1 < 0 :=
        fun hlt => hf ⟨hpos, hfmt, hlt⟩
      refine ⟨writeSamples (rs.audio_resample r.frame
          (r.dataSize / av_get_bytes_per_sample c.sample_fmt)).2 (chunkLength c r) 0
          (((a.addToSampleCount (chunkLength c r)).resetIterators).advanceWriteIterator
            a.getSampleCount), ?_, ?_, ?_, ?_⟩
      · simp only [decodePacketBody, hc, hrs, not_lt.mpr h, hds, if_false, tdiv_bytes c r hpos]
        simp only [ne_eq, hfmt, not_false_eq_true, if_true, hres, if_false]
        rfl
      · simpa [chunk, hds, hfmt] using (key _).1
      · exact (key _).2.1
      · exact (key _).2.2

/-- Unrolling of the loop over a run of `k` good decode calls. -/
theorem loop_steps (s : AudioFileDecoder) (c : AVCodecContext) (rs : ReSampleContext)
    (hc : s.cCtx = some c) (hrs : s.rsCtx = some rs) (d : Nat → DecodeResult) (size : Int) :
    ∀ k : Nat, (∀ j, j < k → 0 < remaining d size j ∧ 0 ≤ (d j).bytesConsumed ∧
        ¬ resampleFails c rs (d j)) →
      ∀ (fuel : Nat) (a : AudioData), ∃ a1,
        decodePacketLoop s d (fuel + k) 0 size a =
          decodePacketLoop s d fuel k (remaining d size k) a1 ∧
        a1.samples = a.samples ++ chunks c rs d k ∧ a1.frameRate = a.frameRate ∧
        a1.channels = a.channels := by
  intro k
  induction k with
  | zero =>
    intro _ fuel a
    exact ⟨a, rfl, by simp [chunks], rfl, rfl⟩
  | succ k ih =>
    intro h fuel a
    obtain ⟨a1, e1, hs1, hf1, hc1⟩ := ih (fun j hj => h j (Nat.lt_succ_of_lt hj)) (fuel + 1) a
    obtain ⟨hpos, hbc, hres⟩ := h k (Nat.lt_succ_self k)
    obtain ⟨a2, e2, hs2, hf2, hc2⟩ :=
      body_next s c rs hc hrs (d k) (remaining d size k) a1 hbc hres
    refine ⟨a2, ?_, ?_, ?_, ?_⟩
    · have hfuel : fuel + (k + 1) = fuel + 1 + k := by omega
      rw [hfuel, e1]
      simp only [decodePacketLoop, hpos, if_true, e2, remaining]
    · rw [hs2, hs1]; simp [chunks]
    · rw [hf2, hf1]
    · rw [hc2, hc1]

/-- When the loop body moves on, the new size is the old one less the bytes consumed, which
are not negative. -/
theorem body_next_size (s : AudioFileDecoder) (r : DecodeResult) (size size1 : Int)
    (a a1 : AudioData) (h : decodePacketBody s r size a = .next size1 a1) :
    0 ≤ r.bytesConsumed ∧ size1 = size - r.bytesConsumed := by
  unfold decodePacketBody at h
  split at h
  · cases h
  · split at h
    · cases h
    · rename_i hbc
      refine ⟨not_lt.mp hbc, ?_⟩
      simp only at h
      split at h
      · injection h with h1 _; exact h1.symm
      · split at h
        · split at h
          · cases h
          · split at h
            · cases h
            · injection h with h1 _; exact h1.symm
        · injection h with h1 _; exact h1.symm

/-- The loop ends within `size + 1` units of fuel when every successful decode call consumes
a byte. -/
theorem loop_total (s : AudioFileDecoder) (d : Nat → DecodeResult)
    (hcons : ∀ j, 0 ≤ (d j).bytesConsumed → 1 ≤ (d j).bytesConsumed) :
    ∀ (fuel i : Nat) (size : Int) (a : AudioData), size.toNat < fuel →
      ∃ r, decodePacketLoop s d fuel i size a = some r := by
  intro fuel
  induction fuel with
  | zero => intro i size a h; omega
  | succ fuel ih =>
    intro i size a h
    by_cases hs : size > 0
    · simp only [decodePacketLoop, hs, if_true]
      cases hb : decodePacketBody s (d i) size a with
      | next size1 a1 =>
        obtain ⟨h0, h1⟩ := body_next_size s (d i) size size1 a a1 hb
        have := hcons i h0
        exact ih (i + 1) size1 a1 (by omega)
      | ret b a1 => exact ⟨_, rfl⟩
      | throw e => exact ⟨_, rfl⟩
      | nullDeref => exact ⟨_, rfl⟩
    · exact ⟨.ret true a, by simp [decodePacketLoop, hs]⟩

/-- More fuel does not change a result. -/
theorem loop_mono (s : AudioFileDecoder) (d : Nat → DecodeResult) :
    ∀ (fuel i : Nat) (size : Int) (a : AudioData) (r : PacketResult),
      decodePacketLoop s d fuel i size a = some r →
      ∀ m, decodePacketLoop s d (fuel + m) i size a = some r := by
  intro fuel
  induction fuel with
  | zero => intro i size a r h; simp [decodePacketLoop] at h
  | succ fuel ih =>
    intro i size a r h m
    have hm : fuel + 1 + m = (fuel + m) + 1 := by omega
    rw [hm]
    simp only [decodePacketLoop] at h ⊢
    by_cases hs : size > 0
    · simp only [hs, if_true] at h ⊢
      cases hb : decodePacketBody s (d i) size a with
      | next size1 a1 =>
        rw [hb] at h
        exact ih (i + 1) size1 a1 r h m
      | ret b a1 => rw [hb] at h; exact h
      | throw e => rw [hb] at h; exact h
      | nullDeref => rw [hb] at h; exact h
    · simp only [hs, if_false] at h ⊢
      exact h

/-- Packets of other streams in front of the container are read and dropped. -/
theorem read_skip (audioStream : Int) (l : List (Int × AVPacket)) :
    ∀ pre : List (Int × AVPacket),
      (∀ x ∈ pre, 0 ≤ x.1 ∧ x.2.stream_index ≠ audioStream) →
      readAudioPacket audioStream (pre ++ l) = readAudioPacket audioStream l := by
  intro pre
  induction pre with
  | nil => intro _; rfl
  | cons x pre ih =>
    intro h
    obtain ⟨h0, h1⟩ := h x (List.mem_cons_self _ _)
    have ih1 := ih (fun y hy => h y (List.mem_cons_of_mem _ hy))
    obtain ⟨r, p⟩ := x
    simp only [List.cons_append, readAudioPacket]
    simp only at h0 h1
    simp [not_lt.mpr h0, h1, av_free_packet, ih1]

theorem read_head (audioStream : Int) (readResult : Int) (pkt : AVPacket)
    (d : Nat → DecodeResult) (rest : List (Int × AVPacket)) (h0 : 0 ≤ readResult)
    (h1 : pkt.stream_index = audioStream) (h2 : pkt.data = some d) :
    readAudioPacket audioStream ((readResult, pkt) :: rest) = (some pkt, rest) := by
  simp [readAudioPacket, not_lt.mpr h0, h1, h2]

theorem read_next (audioStream : Int) (pending : List (Int × AVPacket)) (pkt : AVPacket)
    (d : Nat → DecodeResult) (rest : List (Int × AVPacket))
    (h : NextPacket audioStream pending pkt d rest) :
    readAudioPacket audioStream pending = (some pkt, rest) := by
  obtain ⟨pre, r, hp, hpre, h0, h1, h2⟩ := h
  rw [hp, read_skip audioStream _ pre hpre]
  exact read_head audioStream r pkt d rest h0 h1 h2

theorem read_end (audioStream : Int) (rest : List (Int × AVPacket)) (p : Int × AVPacket)
    (h : p.1 < 0) : readAudioPacket audioStream (p :: rest) = (none, rest) := by
  obtain ⟨r, q⟩ := p
  simp only at h
  simp [readAudioPacket, h]

/-- The call of `decodeNextAudioPacket` in terms of the loop of `decodePacket` on the next
packet of the selected stream. -/
theorem decodeNext_unfold (fuel : Nat) (s : AudioFileDecoder) (f : AVFormatContext)
    (c : AVCodecContext) (rs : ReSampleContext) (hready : Ready s f c rs) (pkt : AVPacket)
    (d : Nat → DecodeResult) (rest : List (Int × AVPacket))
    (hnext : NextPacket s.audioStream f.pending pkt d rest) :
    decodeNextAudioPacket fuel s =
      match decodePacketLoop (s.withPending f rest) d fuel 0 pkt.size (freshAudio c) with
      | none => none
      | some (.ret true a) => some (.record a, s.withPending f rest)
      | some (.ret false a) =>
        if toInt32 (s.badPacketCount + 1) > s.badPacketThreshold then
          some (.throw (Exception.libavTooManyBadPackets s.badPacketThreshold),
            (s.withPending f rest).withBadPacketCount (toInt32 (s.badPacketCount + 1)))
        else some (.record a,
          (s.withPending f rest).withBadPacketCount (toInt32 (s.badPacketCount + 1)))
      | some (.throw e) => some (.throw e, s.withPending f rest)
      | some .nullDeref => some (.nullDeref, s.withPending f rest) := by
  have hd : pkt.data = some d := by
    obtain ⟨_, _, _, _, _, _, h2⟩ := hnext
    exact h2
  have hr := read_next _ _ _ _ _ hnext
  obtain ⟨as, bc, bt, co, fc, cc, rc⟩ := s
  obtain ⟨hf, hc, hrs⟩ := hready
  simp only at hf hc hrs hr
  subst hf hc hrs
  simp only [decodeNextAudioPacket, hr, decodePacket, hd]
  rfl

/-- A call changes no member but the container position and, when the packet fails to
decode, the bad-packet counter. -/
theorem decodeNext_members (fuel : Nat) (s s1 : AudioFileDecoder) (r : CallResult)
    (h : decodeNextAudioPacket fuel s = some (r, s1)) :
    s1.audioStream = s.audioStream ∧ s1.badPacketThreshold = s.badPacketThreshold ∧
      s1.codec = s.codec ∧ s1.cCtx = s.cCtx ∧ s1.rsCtx = s.rsCtx ∧
      (s.fCtx.isSome → s1.fCtx.isSome) ∧
      s1.badPacketCount =
        if packetFails fuel s then toInt32 (s.badPacketCount + 1) else s.badPacketCount := by
  obtain ⟨as, bc, bt, co, fc, cc, rc⟩ := s
  cases fc with
  | none =>
    simp only [decodeNextAudioPacket] at h
    cases h
    simp [packetFails, nextDecodePacket]
  | some f =>
    simp only [decodeNextAudioPacket] at h
    cases hr : readAudioPacket as f.pending with
    | mk p rest =>
      rw [hr] at h
      cases p with
      | none =>
        simp only at h
        cases h
        cases cc <;> simp [packetFails, nextDecodePacket, hr]
      | some avpkt =>
        cases cc with
        | none =>
          simp only at h
          cases h
          simp [packetFails, nextDecodePacket]
        | some c =>
          simp only at h
          have hn : nextDecodePacket fuel ⟨as, bc, bt, co, some f, some c, rc⟩ =
              decodePacket ⟨as, bc, bt, co, some { f with pending := rest }, some c, rc⟩ fuel
                avpkt ((AudioData.new.setFrameRate (toUInt32 c.sample_rate)).setChannels
                  c.channels) := by
            simp only [nextDecodePacket, hr]
            rfl
          simp only [packetFails, hn]
          cases hd : decodePacket ⟨as, bc, bt, co, some { f with pending := rest }, some c, rc⟩
              fuel avpkt ((AudioData.new.setFrameRate (toUInt32 c.sample_rate)).setChannels
                c.channels) with
          | none => rw [hd] at h; cases h
          | some res =>
            rw [hd] at h
            cases res with
            | ret b a =>
              cases b with
              | true => simp only at h; cases h; simp
              | false =>
                simp only at h
                split at h <;> (cases h; simp)
            | throw e => simp only at h; cases h; simp
            | nullDeref => simp only at h; cases h; simp

theorem sessionAfter_members (fuel : Nat) :
    ∀ (n : Nat) (s0 s : AudioFileDecoder), sessionAfter fuel n s0 = some s →
      s.audioStream = s0.audioStream ∧ s.badPacketThreshold = s0.badPacketThreshold ∧
        s.codec = s0.codec ∧ s.cCtx = s0.cCtx ∧ s.rsCtx = s0.rsCtx ∧
        (s0.fCtx.isSome → s.fCtx.isSome) := by
  intro n
  induction n with
  | zero =>
    intro s0 s h
    simp only [sessionAfter, Option.some.injEq] at h
    subst h
    exact ⟨rfl, rfl, rfl, rfl, rfl, id⟩
  | succ n ih =>
    intro s0 s h
    cases hd : decodeNextAudioPacket fuel s0 with
    | none => simp [sessionAfter, hd] at h
    | some p =>
      obtain ⟨r, s1⟩ := p
      simp only [sessionAfter, hd] at h
      obtain ⟨h1, h2, h3, h4, h5, h6, _⟩ := decodeNext_members fuel s0 s1 r hd
      obtain ⟨i1, i2, i3, i4, i5, i6⟩ := ih s1 s h
      exact ⟨i1.trans h1, i2.trans h2, i3.trans h3, i4.trans h4, i5.trans h5,
        fun hs => i6 (h6 hs)⟩

theorem toInt32_id (x : Int) (h0 : -2 ^ 31 ≤ x) (h1 : x < 2 ^ 31) : toInt32 x = x := by
  unfold toInt32
  omega

/-- Along a run the bad-packet counter counts the packets that failed to decode. -/
theorem sessionAfter_count (fuel : Nat) :
    ∀ (n : Nat) (s0 s : AudioFileDecoder), sessionAfter fuel n s0 = some s →
      0 ≤ s0.badPacketCount → s0.badPacketCount + failedPackets fuel n s0 < 2 ^ 31 →
      s.badPacketCount = s0.badPacketCount + failedPackets fuel n s0 := by
  intro n
  induction n with
  | zero =>
    intro s0 s h _ _
    simp only [sessionAfter, Option.some.injEq] at h
    subst h
    simp [failedPackets]
  | succ n ih =>
    intro s0 s h h0 hb
    cases hd : decodeNextAudioPacket fuel s0 with
    | none => simp [sessionAfter, hd] at h
    | some p =>
      obtain ⟨r, s1⟩ := p
      simp only [sessionAfter, hd] at h
      simp only [failedPackets, hd] at hb ⊢
      obtain ⟨_, _, _, _, _, _, h7⟩ := decodeNext_members fuel s0 s1 r hd
      by_cases hp : packetFails fuel s0 = true
      · simp only [hp, if_true] at h7 hb ⊢
        have e : toInt32 (s0.badPacketCount + 1) = s0.badPacketCount + 1 :=
          toInt32_id _ (by omega) (by push_cast at hb; omega)
        rw [e] at h7
        have := ih s1 s h (by omega) (by rw [h7]; push_cast at hb ⊢; omega)
        rw [this, h7]; push_cast; omega
      · simp only [hp] at h7 hb ⊢
        have := ih s1 s h (by rw [h7]; simpa using h0) (by rw [h7]; simpa using hb)
        rw [this, h7]; simp

theorem scan_none (n : Int) :
    ∀ (l : List AVStream) (i : Int),
      (∀ st ∈ l, st.codec.codec_type ≠ AVMEDIA_TYPE_AUDIO) → scanStreams n l i = -1 := by
  intro l
  induction l with
  | nil => intro i _; rfl
  | cons st rest ih =>
    intro i h
    have h1 := h st (List.mem_cons_self _ _)
    have h2 := ih (i + 1) (fun x hx => h x (List.mem_cons_of_mem _ hx))
    simp [scanStreams, h1, h2]

/-- The stream loop stops at the first audio stream. -/
theorem scan_found (n : Int) :
    ∀ (l : List AVStream) (i : Int) (k : Nat) (st : AVStream), i + l.length ≤ n →
      l.get? k = some st → st.codec.codec_type = AVMEDIA_TYPE_AUDIO →
      (∀ j st1, j < k → l.get? j = some st1 → st1.codec.codec_type ≠ AVMEDIA_TYPE_AUDIO) →
      scanStreams n l i = i + k := by
  intro l
  induction l with
  | nil => intro i k st _ h; simp at h
  | cons x rest ih =>
    intro i k st hn hk ha hb
    have hlen : (i : Int) < n := by
      simp only [List.length_cons, Nat.cast_add, Nat.cast_one] at hn
      omega
    cases k with
    | zero =>
      simp only [List.get?_cons_zero, Option.some.injEq] at hk
      subst hk
      simp [scanStreams, hlen, ha]
    | succ k =>
      have hx : x.codec.codec_type ≠ AVMEDIA_TYPE_AUDIO :=
        hb 0 x (Nat.succ_pos k) (by simp)
      have := ih (i + 1) k st
        (by simp only [List.length_cons, Nat.cast_add, Nat.cast_one] at hn; omega)
        (by simpa using hk) ha
        (fun j st1 hj h1 => hb (j + 1) st1 (Nat.succ_lt_succ hj) (by simpa using h1))
      simp only [scanStreams, hlen, if_true, hx, if_false, this]
      push_cast
      omega

theorem scan_index (n : Int) :
    ∀ (l : List AVStream) (i : Int), scanStreams n l i = -1 ∨
      ∃ (k : Nat) (st : AVStream), l.get? k = some st ∧ scanStreams n l i = i + k := by
  intro l
  induction l with
  | nil => intro i; exact Or.inl rfl
  | cons x rest ih =>
    intro i
    simp only [scanStreams]
    split
    · split
      · exact Or.inr ⟨0, x, by simp, by simp⟩
      · rcases ih (i + 1) with h | ⟨k, st, h1, h2⟩
        · exact Or.inl h
        · exact Or.inr ⟨k + 1, st, by simpa using h1, by rw [h2]; push_cast; omega⟩
    · exact Or.inl rfl

theorem findAudioStream_index (streams : List AVStream) :
    findAudioStream streams = -1 ∨
      ∃ st, streams.get? (findAudioStream streams).toNat = some st := by
  rcases scan_index (toInt32 streams.length) streams 0 with h | ⟨k, st, h1, h2⟩
  · exact Or.inl h
  · refine Or.inr ⟨st, ?_⟩
    unfold findAudioStream
    rw [h2]
    simpa using h1

/-- What a successful construction leaves in the members. -/
theorem construct_ok (av : LibAV) (filePath : String) (maxDuration : Int)
    (s : AudioFileDecoder) (log : List Event)
    (h : AudioFileDecoder.construct av filePath maxDuration = .ok s log) :
    s.badPacketCount = 0 ∧ s.badPacketThreshold = max_bad_packets ∧
      s.audioStream = findAudioStream (av.avformat_open_input filePath).2.streams ∧
      ∃ c rs, Ready s (av.avformat_open_input filePath).2 c rs := by
  unfold AudioFileDecoder.construct freeAndThrow at h
  simp only at h
  repeat' split at h
  all_goals cases h
  rename_i st _ _ _ _ _ _ rs hrs
  exact ⟨rfl, rfl, rfl, st.codec, rs, rfl, rfl, hrs⟩

/-- What one run of `free()` adds to the trace: one entry, each release at most once, no
acquisition. -/
theorem free_log (av : LibAV) (s : AudioFileDecoder) (log : List Event) :
    ∃ ev, (s.free av log).log = log ++ ev ∧ ev.count Event.enterFree = 1 ∧
      (∀ r, ev.count (Event.release r) ≤ 1) ∧ (∀ r, ev.count (Event.acquire r) = 0) := by
  obtain ⟨as, bc, bt, co, fc, cc, rc⟩ := s
  unfold AudioFileDecoder.free
  cases rc <;> cases cc <;> cases fc <;> cases co <;> simp only [] <;>
    (try split) <;>
    simp only [Option.isSome_some, Option.isSome_none, if_true, if_false, FreeResult.log,
      List.append_assoc, Bool.false_eq_true] <;>
    refine ⟨_, rfl, by decide, ?_, ?_⟩ <;> intro r <;> cases r <;> decide

theorem freeAndThrow_trace (av : LibAV) (s : AudioFileDecoder) (acq : List Event)
    (e : Exception) : (freeAndThrow av s acq e).trace av = (s.free av acq).log := by
  unfold freeAndThrow
  cases s.free av acq <;> rfl

theorem free_counts (av : LibAV) (s : AudioFileDecoder) (acq : List Event)
    (h0 : acq.count Event.enterFree = 0) (h1 : ∀ r, acq.count (Event.release r) = 0) :
    (s.free av acq).log.count Event.enterFree = 1 ∧
      ∀ r, (s.free av acq).log.count (Event.release r) ≤ 1 := by
  obtain ⟨ev, e, c0, c1, _⟩ := free_log av s acq
  rw [e]
  refine ⟨by rw [List.count_append, h0, c0], fun r => ?_⟩
  rw [List.count_append, h1 r]
  simpa using c1 r

/-- Over a session `free()` is entered once and each resource is released at most once. -/
theorem sessionTrace_counts (av : LibAV) (filePath : String) (maxDuration : Int) :
    (sessionTrace av filePath maxDuration).count Event.enterFree = 1 ∧
      ∀ r, (sessionTrace av filePath maxDuration).count (Event.release r) ≤ 1 := by
  unfold sessionTrace AudioFileDecoder.construct
  simp only
  repeat' split
  all_goals first
    | (rw [freeAndThrow_trace]
       exact free_counts av _ _ (by decide) (by intro r; cases r <;> decide))
    | (simp only [ConstructResult.trace]
       exact free_counts av _ _ (by decide) (by intro r; cases r <;> decide))
    | (exfalso
       rename_i hne _ _ hnone
       rcases findAudioStream_index (av.avformat_open_input filePath).2.streams with h | ⟨st, h⟩
       · exact hne h
       · rw [hnone] at h; cases h)

theorem loop_consumed (s : AudioFileDecoder) (c : AVCodecContext) (rs : ReSampleContext)
    (hc : s.cCtx = some c) (hrs : s.rsCtx = some rs) (d : Nat → DecodeResult) (size : Int)
    (k fuel : Nat) (a : AudioData)
    (hpre : ∀ j, j < k → 0 < remaining d size j ∧ 0 ≤ (d j).bytesConsumed ∧
      ¬ resampleFails c rs (d j))
    (hend : remaining d size k ≤ 0) (hfuel : k < fuel) :
    ∃ a1, decodePacketLoop s d fuel 0 size a = some (.ret true a1) ∧
      a1.samples = a.samples ++ chunks c rs d k ∧ a1.frameRate = a.frameRate ∧
      a1.channels = a.channels := by
  obtain ⟨m, rfl⟩ : ∃ m, fuel = m + 1 + k := ⟨fuel - k - 1, by omega⟩
  obtain ⟨a1, e, h1, h2, h3⟩ := loop_steps s c rs hc hrs d size k hpre (m + 1) a
  exact ⟨a1, by rw [e]; simp [decodePacketLoop, not_lt.mpr hend], h1, h2, h3⟩

theorem loop_failed (s : AudioFileDecoder) (c : AVCodecContext) (rs : ReSampleContext)
    (hc : s.cCtx = some c) (hrs : s.rsCtx = some rs) (d : Nat → DecodeResult) (size : Int)
    (k fuel : Nat) (a : AudioData)
    (hpre : ∀ j, j < k → 0 < remaining d size j ∧ 0 ≤ (d j).bytesConsumed ∧
      ¬ resampleFails c rs (d j))
    (hpos : 0 < remaining d size k) (hbad : (d k).bytesConsumed < 0) (hfuel : k < fuel) :
    ∃ a1, decodePacketLoop s d fuel 0 size a = some (.ret false a1) ∧
      a1.samples = a.samples ++ chunks c rs d k ∧ a1.frameRate = a.frameRate ∧
      a1.channels = a.channels := by
  obtain ⟨m, rfl⟩ : ∃ m, fuel = m + 1 + k := ⟨fuel - k - 1, by omega⟩
  obtain ⟨a1, e, h1, h2, h3⟩ := loop_steps s c rs hc hrs d size k hpre (m + 1) a
  refine ⟨a1, ?_, h1, h2, h3⟩
  rw [e]
  simp only [decodePacketLoop, gt_iff_lt, hpos, if_true, body_fail s c hc (d k) _ a1 hbad]

theorem loop_resample (s : AudioFileDecoder) (c : AVCodecContext) (rs : ReSampleContext)
    (hc : s.cCtx = some c) (hrs : s.rsCtx = some rs) (d : Nat → DecodeResult) (size : Int)
    (k fuel : Nat) (a : AudioData)
    (hpre : ∀ j, j < k → 0 < remaining d size j ∧ 0 ≤ (d j).bytesConsumed ∧
      ¬ resampleFails c rs (d j))
    (hpos : 0 < remaining d size k) (hdec : 0 ≤ (d k).bytesConsumed)
    (hres : resampleFails c rs (d k)) (hfuel : k < fuel) :
    decodePacketLoop s d fuel 0 size a = some (.throw Exception.libavCouldNotResample) := by
  obtain ⟨m, rfl⟩ : ∃ m, fuel = m + 1 + k := ⟨fuel - k - 1, by omega⟩
  obtain ⟨a1, e, _, _, _⟩ := loop_steps s c rs hc hrs d size k hpre (m + 1) a
  rw [e]
  simp only [decodePacketLoop, gt_iff_lt, hpos, if_true,
    body_throw s c rs hc hrs (d k) _ a1 hdec hres]

theorem withPending_ready (s : AudioFileDecoder) (f : AVFormatContext) (c : AVCodecContext)
    (rs : ReSampleContext) (h : Ready s f c rs) (rest : List (Int × AVPacket)) :
    (s.withPending f rest).cCtx = some c ∧ (s.withPending f rest).rsCtx = some rs :=
  ⟨h.2.1, h.2.2⟩

theorem scan_ne (n : Int) :
    ∀ (l : List AVStream) (i : Int), 0 ≤ i → i + l.length ≤ n →
      (∃ st ∈ l, st.codec.codec_type = AVMEDIA_TYPE_AUDIO) → scanStreams n l i ≠ -1 := by
  intro l
  induction l with
  | nil => intro i _ _ h; simp at h
  | cons x rest ih =>
    intro i h0 hn h
    have hlen : (i : Int) < n := by
      simp only [List.length_cons, Nat.cast_add, Nat.cast_one] at hn
      omega
    simp only [scanStreams, hlen, if_true]
    by_cases hx : x.codec.codec_type = AVMEDIA_TYPE_AUDIO
    · simp only [hx, if_true]; omega
    · simp only [hx, if_false]
      obtain ⟨st, hst, ha⟩ := h
      rcases List.mem_cons.mp hst with rfl | hmem
      · exact absurd ha hx
      · exact ih (i + 1) (by omega)
          (by simp only [List.length_cons, Nat.cast_add, Nat.cast_one] at hn; omega)
          ⟨st, hmem, ha⟩

theorem decodeNext_read (fuel : Nat) (s : AudioFileDecoder) (f : AVFormatContext)
    (hf : s.fCtx = some f) (l : List (Int × AVPacket))
    (h : readAudioPacket s.audioStream f.pending = readAudioPacket s.audioStream l) :
    decodeNextAudioPacket fuel s = decodeNextAudioPacket fuel (s.withPending f l) := by
  obtain ⟨as, bc, bt, co, fc, cc, rc⟩ := s
  simp only at hf h
  subst hf
  simp only [decodeNextAudioPacket, AudioFileDecoder.withPending, h]

theorem decodeNext_end (fuel : Nat) (s : AudioFileDecoder) (f : AVFormatContext)
    (hf : s.fCtx = some f) (rest : List (Int × AVPacket))
    (h : readAudioPacket s.audioStream f.pending = (none, rest)) :
    decodeNextAudioPacket fuel s = some (.endOfStream, s.withPending f rest) := by
  obtain ⟨as, bc, bt, co, fc, cc, rc⟩ := s
  simp only at hf h
  subst hf
  simp only [decodeNextAudioPacket, AudioFileDecoder.withPending, h]

/-- The call of `decodeNextAudioPacket` in terms of `decodePacket` on the packet the read
loop leaves in `avpkt`. -/
theorem decodeNext_decodePacket (fuel : Nat) (s : AudioFileDecoder) (f : AVFormatContext)
    (c : AVCodecContext) (hf : s.fCtx = some f) (hc : s.cCtx = some c) (pkt : AVPacket)
    (rest : List (Int × AVPacket))
    (h : readAudioPacket s.audioStream f.pending = (some pkt, rest)) :
    decodeNextAudioPacket fuel s =
      match decodePacket (s.withPending f rest) fuel pkt (freshAudio c) with
      | none => none
      | some (.ret true a) => some (.record a, s.withPending f rest)
      | some (.ret false a) =>
        if toInt32 (s.badPacketCount + 1) > s.badPacketThreshold then
          some (.throw (Exception.libavTooManyBadPackets s.badPacketThreshold),
            (s.withPending f rest).withBadPacketCount (toInt32 (s.badPacketCount + 1)))
        else some (.record a,
          (s.withPending f rest).withBadPacketCount (toInt32 (s.badPacketCount + 1)))
      | some (.throw e) => some (.throw e, s.withPending f rest)
      | some .nullDeref => some (.nullDeref, s.withPending f rest) := by
  obtain ⟨as, bc, bt, co, fc, cc, rc⟩ := s
  simp only at hf hc h
  subst hf hc
  simp only [decodeNextAudioPacket, h]
  rfl

theorem sessionAfter_fixed (fuel : Nat) (s : AudioFileDecoder) (r : CallResult)
    (h : decodeNextAudioPacket fuel s = some (r, s)) :
    ∀ n, sessionAfter fuel n s = some s := by
  intro n
  induction n with
  | zero => rfl
  | succ n ih => simp only [sessionAfter, h, ih]

theorem free_frameBuffer (av : LibAV) (s : AudioFileDecoder) (log : List Event) :
    (s.free av log).log.count (Event.release Resource.frameBuffer) =
      log.count (Event.release Resource.frameBuffer) + 1 := by
  obtain ⟨as, bc, bt, co, fc, cc, rc⟩ := s
  unfold AudioFileDecoder.free
  cases rc <;> cases cc <;> cases fc <;> cases co <;> simp only [] <;>
    (try split) <;>
    simp [FreeResult.log, List.count_append, List.count_cons]

theorem freeAndThrow_throw (av : LibAV) (s : AudioFileDecoder) (acq : List Event)
    (e0 e : Exception) (log : List Event) (h : freeAndThrow av s acq e0 = .throw e log) :
    e = e0 ∧ s.free av acq = .done log := by
  unfold freeAndThrow at h
  cases hf : s.free av acq with
  | done l => rw [hf] at h; cases h; exact ⟨rfl, rfl⟩
  | nullDeref l => rw [hf] at h; cases h

theorem freeAndThrow_nullDeref (av : LibAV) (s : AudioFileDecoder) (acq : List Event)
    (e0 : Exception) (log : List Event) (h : freeAndThrow av s acq e0 = .nullDeref log) :
    s.codec = none ∧ ∃ c, s.cCtx = some c ∧ av.avcodec_close c < 0 := by
  obtain ⟨as, bc, bt, co, fc, cc, rc⟩ := s
  cases cc with
  | none => simp [freeAndThrow, AudioFileDecoder.free] at h
  | some c =>
    by_cases hc : av.avcodec_close c < 0
    · cases co with
      | some _ => simp [freeAndThrow, AudioFileDecoder.free, hc] at h
      | none => exact ⟨rfl, c, rfl, hc⟩
    · simp [freeAndThrow, AudioFileDecoder.free, hc] at h

theorem free_done_counts (av : LibAV) (s : AudioFileDecoder) (acq log : List Event)
    (h : s.free av acq = .done log)
    (h0 : acq.count Event.enterFree = 0) (h1 : ∀ r, acq.count (Event.release r) = 0) :
    log.count Event.enterFree = 1 ∧ ∀ r, log.count (Event.release r) ≤ 1 := by
  have hc := free_counts av s acq h0 h1
  rw [h] at hc
  exact hc

theorem free_done_covers (av : LibAV) (s : AudioFileDecoder) (acq log : List Event)
    (h : s.free av acq = .done log)
    (hacq : ∀ r, Event.acquire r ∈ acq →
      (r = Resource.fCtx → s.fCtx.isSome) ∧ (r = Resource.cCtx → s.cCtx.isSome) ∧
        (r = Resource.rsCtx → s.rsCtx.isSome)) :
    ∀ r, Event.acquire r ∈ log → Event.release r ∈ log := by
  obtain ⟨as, bc, bt, co, fc, cc, rc⟩ := s
  unfold AudioFileDecoder.free at h
  intro r hr
  cases rc <;> cases cc <;> cases fc <;> cases co <;> simp only [] at h <;>
    (try split at h) <;>
    simp only [Option.isSome_some, Option.isSome_none, if_true, if_false,
      Bool.false_eq_true, FreeResult.done.injEq, reduceCtorEq] at h <;>
    subst h <;>
    simp only [List.mem_append, List.mem_cons, List.mem_singleton, List.not_mem_nil,
      reduceCtorEq, or_false, false_or, Event.acquire.injEq, Event.release.injEq] at hr ⊢ <;>
    have := hacq r hr <;>
    cases r <;> simp_all

/-- When the constructor throws, `free()` has run exactly once and every resource acquired
before has been released, once. -/
theorem construct_throw_teardown (av : LibAV) (filePath : String) (maxDuration : Int)
    (e : Exception) (log : List Event)
    (h : AudioFileDecoder.construct av filePath maxDuration = .throw e log) :
    log.count Event.enterFree = 1 ∧
      (∀ r, Event.acquire r ∈ log → Event.release r ∈ log) ∧
      (∀ r, log.count (Event.release r) ≤ 1) := by
  unfold AudioFileDecoder.construct at h
  simp only at h
  repeat' split at h
  all_goals first
    | (obtain ⟨_, hfree⟩ := freeAndThrow_throw av _ _ _ e log h
       have hc := free_done_counts av _ _ log hfree (by decide)
         (by intro r; cases r <;> decide)
       refine ⟨hc.1, free_done_covers av _ _ log hfree ?_, hc.2⟩
       intro r hr
       cases r <;> simp_all)
    | cases h

/-- The constructor ends in a null dereference only on the unsupported-codec path, when
`avcodec_close` reports an error. -/
theorem construct_nullDeref (av : LibAV) (filePath : String) (maxDuration : Int)
    (log : List Event)
    (h : AudioFileDecoder.construct av filePath maxDuration = .nullDeref log) :
    ∃ st, (av.avformat_open_input filePath).2.streams.get?
        (findAudioStream (av.avformat_open_input filePath).2.streams).toNat = some st ∧
      av.avcodec_find_decoder st.codec.codec_id = none ∧ av.avcodec_close st.codec < 0 := by
  unfold AudioFileDecoder.construct at h
  simp only at h
  repeat' split at h
  all_goals first
    | (obtain ⟨h1, c, h2, h3⟩ := freeAndThrow_nullDeref av _ _ _ log h
       simp only [Option.some.injEq, reduceCtorEq] at h2
       done)
    | (obtain ⟨h1, c, h2, h3⟩ := freeAndThrow_nullDeref av _ _ _ log h
       simp only [Option.some.injEq] at h2
       subst h2
       exact ⟨_, by assumption, by assumption, h3⟩)
    | (exfalso
       rename_i hne _ _ hnone
       rcases findAudioStream_index (av.avformat_open_input filePath).2.streams with h | ⟨st, h⟩
       · exact hne h
       · rw [hnone] at h; cases h)
    | cases h

/-- When the whole seconds of the duration and `maxDuration * 60` both fit an `int`, the
duration test is the one on the exact values. -/
theorem durationExceeds_in_range (duration maxDuration : Int) (h0 : 0 ≤ duration)
    (h1 : duration / AV_TIME_BASE < 2 ^ 31) (h2 : -2 ^ 31 ≤ maxDuration * 60)
    (h3 : maxDuration * 60 < 2 ^ 31) :
    durationExceeds duration maxDuration = true ↔
      duration / AV_TIME_BASE / 60 < 720 ∧ duration / AV_TIME_BASE > maxDuration * 60 := by
  have hq : 0 ≤ duration / AV_TIME_BASE := Int.ediv_nonneg h0 (by decide)
  have e1 : durationSeconds duration = duration / AV_TIME_BASE := by
    unfold durationSeconds
    rw [Int.tdiv_eq_ediv h0 (by decide)]
    exact toInt32_id _ (by omega) h1
  have e2 : durationMinutes duration = duration / AV_TIME_BASE / 60 := by
    unfold durationMinutes
    rw [e1, Int.tdiv_eq_ediv hq (by decide)]
  have e3 : toInt32 (maxDuration * 60) = maxDuration * 60 := toInt32_id _ h2 h3
  simp [durationExceeds, e1, e2, e3]

/-! ## The claims -/

/-- Claim C1. In a session built by the constructor (threshold `max_bad_packets` = 100),
after any `n` calls of `decodeNextAudioPacket`, consider the next packet of the selected
stream, whose first `k` decode calls succeed. If decode call `k` on it reports failure,
the call returns a record when the number of failed packets so far, this one included,
is at most the threshold, and throws `libavTooManyBadPackets` when that number is the
threshold plus one. If instead the packet is consumed after the `k` calls, the call
returns a record holding its samples, whatever the number of failed packets. -/
theorem bad_packet_tolerance (av : LibAV) (filePath : String) (maxDuration : Int)
    (s0 : AudioFileDecoder) (log : List Event) (fuel n : Nat) (s : AudioFileDecoder)
    (f : AVFormatContext) (c : AVCodecContext) (rs : ReSampleContext) (pkt : AVPacket)
    (d : Nat → DecodeResult) (rest : List (Int × AVPacket)) (k : Nat)
    (hs0 : AudioFileDecoder.construct av filePath maxDuration = .ok s0 log)
    (hrun : sessionAfter fuel n s0 = some s)
    (hready : Ready s f c rs)
    (hnext : NextPacket s.audioStream f.pending pkt d rest)
    (hpre : ∀ j, j < k → 0 < remaining d pkt.size j ∧ 0 ≤ (d j).bytesConsumed ∧
      ¬ resampleFails c rs (d j))
    (hfuel : k < fuel) :
    (0 < remaining d pkt.size k → (d k).bytesConsumed < 0 →
      ((failedPackets fuel n s0 : Int) + 1 ≤ max_bad_packets →
        ∃ a, decodeNextAudioPacket fuel s = some (.record a,
          (s.withPending f rest).withBadPacketCount (failedPackets fuel n s0 + 1))) ∧
      ((failedPackets fuel n s0 : Int) + 1 = max_bad_packets + 1 →
        decodeNextAudioPacket fuel s =
          some (.throw (Exception.libavTooManyBadPackets max_bad_packets),
            (s.withPending f rest).withBadPacketCount (max_bad_packets + 1)))) ∧
    (remaining d pkt.size k ≤ 0 →
      ∃ a, decodeNextAudioPacket fuel s = some (.record a, s.withPending f rest) ∧
        a.samples = chunks c rs d k) := by
  obtain ⟨hc0, ht0, _, _⟩ := construct_ok av filePath maxDuration s0 log hs0
  obtain ⟨_, ht, _, _, _, _⟩ := sessionAfter_members fuel n s0 s hrun
  obtain ⟨hc1, hrs1⟩ := withPending_ready s f c rs hready rest
  have hunfold := decodeNext_unfold fuel s f c rs hready pkt d rest hnext
  refine ⟨fun hpos hbad => ?_, fun hend => ?_⟩
  · obtain ⟨a1, e, _, _, _⟩ := loop_failed (s.withPending f rest) c rs hc1 hrs1 d pkt.size k
      fuel (freshAudio c) hpre hpos hbad hfuel
    rw [e] at hunfold
    simp only [ht, ht0] at hunfold
    have hcount : ∀ b : Int, (failedPackets fuel n s0 : Int) + 1 ≤ b → b ≤ 101 →
        s.badPacketCount = failedPackets fuel n s0 ∧
          toInt32 (s.badPacketCount + 1) = failedPackets fuel n s0 + 1 := by
      intro b hb hb1
      have h1 := sessionAfter_count fuel n s0 s hrun (by rw [hc0]) (by rw [hc0]; omega)
      rw [hc0, zero_add] at h1
      exact ⟨h1, by rw [h1]; exact toInt32_id _ (by omega) (by omega)⟩
    constructor
    · intro hle
      simp only [max_bad_packets] at hle
      obtain ⟨_, h2⟩ := hcount 100 hle (by omega)
      refine ⟨a1, ?_⟩
      rw [hunfold, h2]
      simp only [max_bad_packets, gt_iff_lt, not_lt.mpr hle, if_false]
    · intro heq
      simp only [max_bad_packets] at heq
      obtain ⟨_, h2⟩ := hcount 101 (by omega) (le_refl _)
      rw [hunfold, h2, heq]
      simp [max_bad_packets]
  · obtain ⟨a1, e, h1, _, _⟩ := loop_consumed (s.withPending f rest) c rs hc1 hrs1 d pkt.size
      k fuel (freshAudio c) hpre hend hfuel
    rw [e] at hunfold
    exact ⟨a1, hunfold, by simpa [freshAudio] using h1⟩

/-- Witness for C1: after one failed packet, a second packet whose second decode call fails
still gives a record. -/
theorem bad_packet_tolerance_witness :
    ∃ a, decodeNextAudioPacket 3 (s16Session 1 [(0, splitPacket), (0, goodPacket)]) =
      some (.record a,
        ((s16Session 1 [(0, splitPacket), (0, goodPacket)]).withPending
          (s16Container [(0, splitPacket), (0, goodPacket)])
          [(0, goodPacket)]).withBadPacketCount
          (failedPackets 3 1 (s16Session 0
            [(0, videoPacket), (0, badPacket), (0, splitPacket), (0, goodPacket)]) + 1)) :=
  ((bad_packet_tolerance
    (exampleLibAV (s16Container
      [(0, videoPacket), (0, badPacket), (0, splitPacket), (0, goodPacket)])
      (some mp3) (some copyResampler) 0)
    "a.mp3" 10
    (s16Session 0 [(0, videoPacket), (0, badPacket), (0, splitPacket), (0, goodPacket)])
    constructLog 3 1
    (s16Session 1 [(0, splitPacket), (0, goodPacket)])
    (s16Container [(0, splitPacket), (0, goodPacket)]) s16Stream.codec copyResampler
    splitPacket frameThenError [(0, goodPacket)] 1
    rfl rfl ⟨rfl, rfl, rfl⟩
    ⟨[], 0, rfl, by simp, by decide, rfl, rfl⟩
    (by
      intro j hj
      obtain rfl : j = 0 := by omega
      exact ⟨by decide, by decide, fun h => h.2.1 rfl⟩)
    (by decide)).1 (by decide) (by decide)).1 (by decide)

/-- Claim C2, at the failing input: a container reporting 4294967396 seconds is at least 720
minutes long, yet `durationSeconds` is 100 after the narrowing to `int`, and with
`maxDuration` = 1 the constructor throws `durationExceedsPreference 1 40 1`. -/
theorem duration_check_truncates :
    ¬ (overlongContainer.duration / AV_TIME_BASE / 60 < 720) ∧
    durationSeconds overlongContainer.duration = 100 ∧
    (AudioFileDecoder.construct (exampleLibAV overlongContainer (some mp3)
      (some copyResampler) 0) "overlong.mp3" 1).exception =
      some (Exception.durationExceedsPreference 1 40 1) := by
  decide

/-- Claim C3. When the container opens and probes (with fewer than 2^31 streams), the
constructor throws `libavCouldNotFindAudioStream` if and only if no stream is tagged as
audio; and when stream `i` is audio and no stream before it is, the stream loop selects
`i`, a session that gets constructed has `audioStream = i`, and no run of
`decodeNextAudioPacket` calls changes it. -/
theorem first_audio_stream_selected (av : LibAV) (filePath : String) (maxDuration : Int)
    (ctx : AVFormatContext)
    (hopen : av.avformat_open_input filePath = (0, ctx))
    (hprobe : 0 ≤ av.avformat_find_stream_info ctx)
    (hlen : (ctx.streams.length : Int) < 2 ^ 31) :
    ((∃ log, AudioFileDecoder.construct av filePath maxDuration =
        .throw Exception.libavCouldNotFindAudioStream log) ↔
      ∀ st ∈ ctx.streams, st.codec.codec_type ≠ AVMEDIA_TYPE_AUDIO) ∧
    (∀ (i : Nat) (st : AVStream), ctx.streams.get? i = some st →
      st.codec.codec_type = AVMEDIA_TYPE_AUDIO →
      (∀ j st1, j < i → ctx.streams.get? j = some st1 →
        st1.codec.codec_type ≠ AVMEDIA_TYPE_AUDIO) →
      findAudioStream ctx.streams = i ∧
      ∀ s log, AudioFileDecoder.construct av filePath maxDuration = .ok s log →
        s.audioStream = i ∧
        ∀ fuel n s1, sessionAfter fuel n s = some s1 → s1.audioStream = i) := by
  have h32 : toInt32 ctx.streams.length = ctx.streams.length :=
    toInt32_id _ (by omega) hlen
  refine ⟨⟨?_, ?_⟩, ?_⟩
  · rintro ⟨log, h⟩
    by_contra hex
    push_neg at hex
    obtain ⟨st, hst, ha⟩ := hex
    have hne : findAudioStream ctx.streams ≠ -1 := by
      unfold findAudioStream
      exact scan_ne _ ctx.streams 0 (le_refl 0) (by rw [h32]; omega) ⟨st, hst, ha⟩
    unfold AudioFileDecoder.construct freeAndThrow at h
    simp only [hopen] at h
    repeat' split at h
    all_goals cases h
  · intro hall
    have hm : findAudioStream ctx.streams = -1 := scan_none _ _ _ hall
    refine ⟨[Event.acquire Resource.filePathCh, Event.acquire Resource.frameBuffer,
      Event.acquire Resource.frameBufferConverted, Event.acquire Resource.fCtx,
      Event.enterFree, Event.release Resource.frameBuffer,
      Event.release Resource.frameBufferConverted, Event.release Resource.fCtx,
      Event.release Resource.filePathCh], ?_⟩
    simp [AudioFileDecoder.construct, hopen, not_lt.mpr hprobe, hm, freeAndThrow,
      AudioFileDecoder.free]
  · intro i st hi ha hmin
    have hfound : findAudioStream ctx.streams = i := by
      unfold findAudioStream
      have := scan_found (toInt32 ctx.streams.length) ctx.streams 0 i st
        (by rw [h32]; omega) hi ha hmin
      simpa using this
    refine ⟨hfound, fun s log hok => ?_⟩
    have hs : s.audioStream = i := by
      have := (construct_ok av filePath maxDuration s log hok).2.2.1
      rw [this, hopen]
      exact hfound
    exact ⟨hs, fun fuel n s1 hrun =>
      (sessionAfter_members fuel n s s1 hrun).1.trans hs⟩

/-- Witness for C3: with a video stream followed by an audio stream, index 1 is selected. -/
theorem first_audio_stream_selected_witness :
    findAudioStream [videoStream, s16Stream] = (1 : Nat) :=
  ((first_audio_stream_selected
    (exampleLibAV (s16Container []) (some mp3) (some copyResampler) 0) "a.mp3" 10
    (s16Container []) rfl (by decide) (by decide)).2 1 s16Stream rfl rfl
    (by
      intro j st1 hj h1
      obtain rfl : j = 0 := by omega
      obtain rfl : videoStream = st1 := Option.some.inj h1
      decide)).1

/-- Counterexample to C4: a packet of the selected stream whose two decode calls report no
failure, in a session with a float native format whose format conversion reports an
error: the call throws `libavCouldNotResample` and returns no record. -/
theorem resample_error_returns_no_record :
    goodPacket.stream_index = (fltSession [(0, goodPacket)]).audioStream ∧
    0 ≤ (twoFrames 0).bytesConsumed ∧ 0 ≤ (twoFrames 1).bytesConsumed ∧
    remaining twoFrames goodPacket.size 2 ≤ 0 ∧
    (decodeNextAudioPacket 3 (fltSession [(0, goodPacket)])).map Prod.fst =
      some (.throw Exception.libavCouldNotResample) := by
  decide

/-- Claim C4, amended. For the next packet of the selected stream, consumed by `k` decode
calls none of which reports failure and none of whose format conversions reports an
error, `decodeNextAudioPacket` returns a record tagged with the frame rate and channel
count of the session whose samples are the concatenation, in call order, of the chunks
of the `k` calls; the bad-packet counter is unchanged; a call that emits nothing
contributes the empty chunk, a chunk is the raw frame when the native format is signed
16-bit and the normalizer output otherwise. -/
theorem decodeNextAudioPacket_concatenates_chunks (s : AudioFileDecoder) (f : AVFormatContext)
    (c : AVCodecContext) (rs : ReSampleContext) (pkt : AVPacket) (d : Nat → DecodeResult)
    (rest : List (Int × AVPacket)) (k fuel : Nat)
    (hready : Ready s f c rs)
    (hnext : NextPacket s.audioStream f.pending pkt d rest)
    (hcalls : ∀ j, j < k → 0 < remaining d pkt.size j)
    (hend : remaining d pkt.size k ≤ 0)
    (hdec : ∀ j, j < k → 0 ≤ (d j).bytesConsumed)
    (hres : ∀ j, j < k → ¬ resampleFails c rs (d j))
    (hfuel : k < fuel) :
    (∃ a, decodeNextAudioPacket fuel s = some (.record a, s.withPending f rest) ∧
      a.frameRate = toUInt32 c.sample_rate ∧ a.channels = c.channels ∧
      a.samples = chunks c rs d k) ∧
    (s.withPending f rest).badPacketCount = s.badPacketCount ∧
    (∀ j, (d j).dataSize ≤ 0 → chunk c rs (d j) = []) ∧
    (∀ j, c.sample_fmt = AVSampleFormat.S16 → 0 < (d j).dataSize →
      chunk c rs (d j) = (List.range (chunkLength c (d j))).map (d j).frame) ∧
    (∀ j, c.sample_fmt ≠ AVSampleFormat.S16 → 0 < (d j).dataSize →
      chunk c rs (d j) = (List.range (chunkLength c (d j))).map
        (rs.audio_resample (d j).frame
          ((d j).dataSize / av_get_bytes_per_sample c.sample_fmt)).2) := by
  obtain ⟨hc1, hrs1⟩ := withPending_ready s f c rs hready rest
  obtain ⟨a1, e, h1, h2, h3⟩ := loop_consumed (s.withPending f rest) c rs hc1 hrs1 d pkt.size k
    fuel (freshAudio c) (fun j hj => ⟨hcalls j hj, hdec j hj, hres j hj⟩) hend hfuel
  refine ⟨⟨a1, ?_, h2, h3, by simpa [freshAudio] using h1⟩, rfl, ?_, ?_, ?_⟩
  · rw [decodeNext_unfold fuel s f c rs hready pkt d rest hnext, e]
  · intro j hj; simp [chunk, hj]
  · intro j hfmt hj; simp [chunk, not_le.mpr hj, hfmt]
  · intro j hfmt hj; simp [chunk, not_le.mpr hj, hfmt]

/-- Witness for C4: a video packet is skipped and the two-frame packet yields the samples 7,
8. -/
theorem decodeNextAudioPacket_concatenates_chunks_witness :
    ∃ a, decodeNextAudioPacket 3 (s16Session 0 [(0, videoPacket), (0, goodPacket)]) =
        some (.record a, (s16Session 0 [(0, videoPacket), (0, goodPacket)]).withPending
          (s16Container [(0, videoPacket), (0, goodPacket)]) []) ∧
      a.frameRate = 44100 ∧ a.channels = 2 ∧ a.samples = [7, 8] :=
  (decodeNextAudioPacket_concatenates_chunks
    (s16Session 0 [(0, videoPacket), (0, goodPacket)])
    (s16Container [(0, videoPacket), (0, goodPacket)]) s16Stream.codec copyResampler
    goodPacket twoFrames [] 2 3 ⟨rfl, rfl, rfl⟩
    ⟨[(0, videoPacket)], 0, rfl, by simp [videoPacket, s16Session], by decide, rfl, rfl⟩
    (by intro j hj; interval_cases j <;> decide)
    (by decide)
    (by intro j hj; interval_cases j <;> decide)
    (by intro j _ h; exact h.2.1 rfl)
    (by decide)).1

/-- Counterexample to C5: the second decode call on the packet fails, the tolerance is not
exceeded, and the returned record holds the two samples of the first call. -/
theorem failed_packet_keeps_earlier_samples :
    (frameThenError 1).bytesConsumed < 0 ∧
    toInt32 ((s16Session 0 [(0, splitPacket)]).badPacketCount + 1) ≤
      (s16Session 0 [(0, splitPacket)]).badPacketThreshold ∧
    (decodeNextAudioPacket 3 (s16Session 0 [(0, splitPacket)])).map Prod.fst =
      some (.record ⟨44100, 2, [7, 8], 2⟩) := by
  decide

/-- Claim C5, amended. When decode call `k` on the next packet of the selected stream
reports failure, after `k` good calls, and the incremented counter does not exceed the
threshold, the returned record holds exactly the chunks of the `k` calls before the
failing one: no samples when the failing call is the first. -/
theorem failed_packet_record_samples (s : AudioFileDecoder) (f : AVFormatContext)
    (c : AVCodecContext) (rs : ReSampleContext) (pkt : AVPacket) (d : Nat → DecodeResult)
    (rest : List (Int × AVPacket)) (k fuel : Nat)
    (hready : Ready s f c rs)
    (hnext : NextPacket s.audioStream f.pending pkt d rest)
    (hpre : ∀ j, j < k → 0 < remaining d pkt.size j ∧ 0 ≤ (d j).bytesConsumed ∧
      ¬ resampleFails c rs (d j))
    (hpos : 0 < remaining d pkt.size k) (hbad : (d k).bytesConsumed < 0)
    (htol : toInt32 (s.badPacketCount + 1) ≤ s.badPacketThreshold)
    (hfuel : k < fuel) :
    ∃ a, decodeNextAudioPacket fuel s = some (.record a,
        (s.withPending f rest).withBadPacketCount (toInt32 (s.badPacketCount + 1))) ∧
      a.samples = chunks c rs d k ∧ (k = 0 → a.samples = []) := by
  obtain ⟨hc1, hrs1⟩ := withPending_ready s f c rs hready rest
  obtain ⟨a1, e, h1, _, _⟩ := loop_failed (s.withPending f rest) c rs hc1 hrs1 d pkt.size k
    fuel (freshAudio c) hpre hpos hbad hfuel
  have hs : a1.samples = chunks c rs d k := by simpa [freshAudio] using h1
  refine ⟨a1, ?_, hs, fun hk => by rw [hs, hk]; rfl⟩
  rw [decodeNext_unfold fuel s f c rs hready pkt d rest hnext, e]
  simp [not_lt.mpr htol]

/-- Witness for C5 amended: the failing call is the second, the record holds the chunk of
the first. -/
theorem failed_packet_record_samples_witness :
    ∃ a, decodeNextAudioPacket 3 (s16Session 0 [(0, splitPacket)]) =
        some (.record a, ((s16Session 0 [(0, splitPacket)]).withPending
          (s16Container [(0, splitPacket)]) []).withBadPacketCount 1) ∧
      a.samples = [7, 8] ∧ ((1 : Nat) = 0 → a.samples = []) :=
  failed_packet_record_samples (s16Session 0 [(0, splitPacket)])
    (s16Container [(0, splitPacket)]) s16Stream.codec copyResampler
    splitPacket frameThenError [] 1 3 ⟨rfl, rfl, rfl⟩
    ⟨[], 0, rfl, by simp, by decide, rfl, rfl⟩
    (by
      intro j hj
      obtain rfl : j = 0 := by omega
      exact ⟨by decide, by decide, fun h => h.2.1 rfl⟩)
    (by decide) (by decide) (by decide) (by decide)

/-- Claim C6. When a format-conversion call reports an error on the next packet of the
selected stream (at decode call `k`, after `k` good calls), `decodeNextAudioPacket`
throws `libavCouldNotResample`, whatever the bad-packet count, returns no record, and
leaves the bad-packet counter unchanged. -/
theorem resample_failure_raises (s : AudioFileDecoder) (f : AVFormatContext)
    (c : AVCodecContext) (rs : ReSampleContext) (pkt : AVPacket) (d : Nat → DecodeResult)
    (rest : List (Int × AVPacket)) (k fuel : Nat)
    (hready : Ready s f c rs)
    (hnext : NextPacket s.audioStream f.pending pkt d rest)
    (hpre : ∀ j, j < k → 0 < remaining d pkt.size j ∧ 0 ≤ (d j).bytesConsumed ∧
      ¬ resampleFails c rs (d j))
    (hpos : 0 < remaining d pkt.size k) (hdec : 0 ≤ (d k).bytesConsumed)
    (hres : resampleFails c rs (d k))
    (hfuel : k < fuel) :
    decodeNextAudioPacket fuel s =
        some (.throw Exception.libavCouldNotResample, s.withPending f rest) ∧
      (s.withPending f rest).badPacketCount = s.badPacketCount := by
  obtain ⟨hc1, hrs1⟩ := withPending_ready s f c rs hready rest
  have e := loop_resample (s.withPending f rest) c rs hc1 hrs1 d pkt.size k
    fuel (freshAudio c) hpre hpos hdec hres hfuel
  refine ⟨?_, rfl⟩
  rw [decodeNext_unfold fuel s f c rs hready pkt d rest hnext, e]

/-- Witness for C6: a float session at bad-packet count 0 whose normalizer reports an error. -/
theorem resample_failure_raises_witness :
    decodeNextAudioPacket 3 (fltSession [(0, goodPacket)]) =
        some (.throw Exception.libavCouldNotResample,
          (fltSession [(0, goodPacket)]).withPending
            ⟨[videoStream, fltStream], 180000000, [(0, goodPacket)]⟩ []) ∧
      ((fltSession [(0, goodPacket)]).withPending
        ⟨[videoStream, fltStream], 180000000, [(0, goodPacket)]⟩ []).badPacketCount = 0 :=
  resample_failure_raises (fltSession [(0, goodPacket)])
    ⟨[videoStream, fltStream], 180000000, [(0, goodPacket)]⟩ fltStream.codec failingResampler
    goodPacket twoFrames [] 0 3 ⟨rfl, rfl, rfl⟩
    ⟨[], 0, rfl, by simp, by decide, rfl, rfl⟩
    (by intro j hj; omega)
    (by decide) (by decide) ⟨by decide, by decide, by decide⟩ (by decide)

/-- Claim C7. With packets `pre` of other streams in front of the container: when a packet
of the selected stream (carrying data) follows, it is the packet the read loop hands to
`decodePacket`, the call is the same as on the container without `pre`, the result of the
call is the one `decodePacket` gives on that packet (a record when it returns `true`; on
`false` the counter is incremented and the call throws past the threshold; an exception
is passed on), and when that packet is consumed by `k` good decode calls the call returns
the record of its samples, tagged with the frame rate and channel count of the session;
when the backend instead reports a read failure, or nothing follows, the call returns
`endOfStream` with the counter unchanged; and on the exhausted container every later call
returns `endOfStream` again. -/
theorem decodeNextAudioPacket_skips_other_streams (fuel : Nat) (s : AudioFileDecoder)
    (f : AVFormatContext) (pre : List (Int × AVPacket))
    (hf : s.fCtx = some f)
    (hpre : ∀ x ∈ pre, 0 ≤ x.1 ∧ x.2.stream_index ≠ s.audioStream) :
    (∀ p rest, f.pending = pre ++ p :: rest → 0 ≤ p.1 → p.2.stream_index = s.audioStream →
      p.2.data ≠ none →
      readAudioPacket s.audioStream f.pending = (some p.2, rest) ∧
      decodeNextAudioPacket fuel s =
        decodeNextAudioPacket fuel (s.withPending f (p :: rest)) ∧
      (∀ c, s.cCtx = some c →
        decodeNextAudioPacket fuel s =
          match decodePacket (s.withPending f rest) fuel p.2 (freshAudio c) with
          | none => none
          | some (.ret true a) => some (.record a, s.withPending f rest)
          | some (.ret false a) =>
            if toInt32 (s.badPacketCount + 1) > s.badPacketThreshold then
              some (.throw (Exception.libavTooManyBadPackets s.badPacketThreshold),
                (s.withPending f rest).withBadPacketCount (toInt32 (s.badPacketCount + 1)))
            else some (.record a,
              (s.withPending f rest).withBadPacketCount (toInt32 (s.badPacketCount + 1)))
          | some (.throw e) => some (.throw e, s.withPending f rest)
          | some .nullDeref => some (.nullDeref, s.withPending f rest)) ∧
      (∀ c rs d k, s.cCtx = some c → s.rsCtx = some rs → p.2.data = some d →
        (∀ j, j < k → 0 < remaining d p.2.size j ∧ 0 ≤ (d j).bytesConsumed ∧
          ¬ resampleFails c rs (d j)) →
        remaining d p.2.size k ≤ 0 → k < fuel →
        ∃ a, decodeNextAudioPacket fuel s = some (.record a, s.withPending f rest) ∧
          a.frameRate = toUInt32 c.sample_rate ∧ a.channels = c.channels ∧
          a.samples = chunks c rs d k)) ∧
    (∀ p rest, f.pending = pre ++ p :: rest → p.1 < 0 →
      decodeNextAudioPacket fuel s = some (.endOfStream, s.withPending f rest)) ∧
    (f.pending = pre →
      decodeNextAudioPacket fuel s = some (.endOfStream, s.withPending f []) ∧
      ∀ n, sessionAfter fuel n (s.withPending f []) = some (s.withPending f []) ∧
        decodeNextAudioPacket fuel (s.withPending f []) =
          some (.endOfStream, s.withPending f [])) := by
  have hexh : decodeNextAudioPacket fuel (s.withPending f []) =
      some (.endOfStream, s.withPending f []) :=
    decodeNext_end fuel (s.withPending f []) { f with pending := [] } rfl [] rfl
  refine ⟨fun p rest hp h0 h1 h2 => ?_, fun p rest hp h0 => ?_, fun hp => ?_⟩
  · obtain ⟨d0, hd0⟩ := Option.ne_none_iff_exists'.mp h2
    have hskip := read_skip s.audioStream (p :: rest) pre hpre
    rw [← hp] at hskip
    have hread : readAudioPacket s.audioStream f.pending = (some p.2, rest) := by
      rw [hskip]
      exact read_head s.audioStream p.1 p.2 d0 rest h0 h1 hd0
    refine ⟨hread, decodeNext_read fuel s f hf (p :: rest) hskip,
      fun c hc => decodeNext_decodePacket fuel s f c hf hc p.2 rest hread, ?_⟩
    intro c rs d k hc hrs hd hgood hend hfuel
    have hready : Ready s f c rs := ⟨hf, hc, hrs⟩
    obtain ⟨hc1, hrs1⟩ := withPending_ready s f c rs hready rest
    obtain ⟨a1, e, e1, e2, e3⟩ := loop_consumed (s.withPending f rest) c rs hc1 hrs1 d
      p.2.size k fuel (freshAudio c) hgood hend hfuel
    refine ⟨a1, ?_, e2, e3, by simpa [freshAudio] using e1⟩
    rw [decodeNext_decodePacket fuel s f c hf hc p.2 rest hread]
    simp only [decodePacket, hd, e]
  · apply decodeNext_end fuel s f hf rest
    rw [hp, read_skip s.audioStream (p :: rest) pre hpre]
    exact read_end s.audioStream rest p h0
  · refine ⟨?_, fun n => ⟨sessionAfter_fixed fuel _ _ hexh n, hexh⟩⟩
    apply decodeNext_end fuel s f hf []
    have := read_skip s.audioStream [] pre hpre
    rw [List.append_nil] at this
    rw [hp, this]
    rfl

/-- Witness for C7: a video packet in front of an audio packet; the call returns the record
of the audio packet, with the samples 7, 8. -/
theorem decodeNextAudioPacket_skips_other_streams_witness :
    ∃ a, decodeNextAudioPacket 3 (s16Session 0 [(0, videoPacket), (0, goodPacket)]) =
        some (.record a, (s16Session 0 [(0, videoPacket), (0, goodPacket)]).withPending
          (s16Container [(0, videoPacket), (0, goodPacket)]) []) ∧
      a.frameRate = 44100 ∧ a.channels = 2 ∧ a.samples = [7, 8] :=
  ((decodeNextAudioPacket_skips_other_streams 3
    (s16Session 0 [(0, videoPacket), (0, goodPacket)])
    (s16Container [(0, videoPacket), (0, goodPacket)]) [(0, videoPacket)] rfl
    (by simp [videoPacket, s16Session])).1 (0, goodPacket) [] rfl (by decide) rfl
    (by simp [goodPacket])).2.2.2 s16Stream.codec copyResampler twoFrames 2 rfl rfl rfl
    (by
      intro j hj
      interval_cases j
      · exact ⟨by decide, by decide, fun h => h.2.1 rfl⟩
      · exact ⟨by decide, by decide, fun h => h.2.1 rfl⟩)
    (by decide) (by decide)

/-- Claim C8, at the failing input: the codec id has no decoder and `avcodec_close` answers
-1; `free()` releases the two buffers, closes the codec context and then reads
`codec->long_name` with `codec` null: no exception is raised and the container and the
path are not released. -/
theorem teardown_dereferences_null_codec :
    AudioFileDecoder.construct (exampleLibAV (s16Container []) none (some copyResampler) (-1))
      "unsupported.bin" 10 =
    .nullDeref [Event.acquire Resource.filePathCh, Event.acquire Resource.frameBuffer,
      Event.acquire Resource.frameBufferConverted, Event.acquire Resource.fCtx,
      Event.enterFree, Event.release Resource.frameBuffer,
      Event.release Resource.frameBufferConverted, Event.release Resource.cCtx] := by
  rfl

/-- Counterexample to C9: a second invocation of `free()` on a constructed session releases
every resource a second time. -/
theorem free_twice_releases_twice :
    (s16Session 0 []).free (exampleLibAV (s16Container []) (some mp3) (some copyResampler) 0)
      ((s16Session 0 []).free (exampleLibAV (s16Container []) (some mp3)
        (some copyResampler) 0) constructLog).log =
    .done (constructLog ++
      [Event.enterFree, Event.release Resource.frameBuffer,
        Event.release Resource.frameBufferConverted, Event.release Resource.rsCtx,
        Event.release Resource.cCtx, Event.release Resource.fCtx,
        Event.release Resource.filePathCh,
        Event.enterFree, Event.release Resource.frameBuffer,
        Event.release Resource.frameBufferConverted, Event.release Resource.rsCtx,
        Event.release Resource.cCtx, Event.release Resource.fCtx,
        Event.release Resource.filePathCh]) := by
  decide

/-- Claim C9, amended. Over a session (the constructor, then the destructor when
construction succeeded) `free()` is entered exactly once, so each backend resource is
released at most once; `free()` itself is not idempotent: a second invocation releases
the frame buffer again. -/
theorem free_once_per_session (av : LibAV) (filePath : String) (maxDuration : Int) :
    (sessionTrace av filePath maxDuration).count Event.enterFree = 1 ∧
    (∀ r, (sessionTrace av filePath maxDuration).count (Event.release r) ≤ 1) ∧
    (∀ (s : AudioFileDecoder) (log : List Event),
      ((s.free av (s.free av log).log).log).count (Event.release Resource.frameBuffer) =
        log.count (Event.release Resource.frameBuffer) + 2) := by
  refine ⟨(sessionTrace_counts av filePath maxDuration).1,
    (sessionTrace_counts av filePath maxDuration).2, fun s log => ?_⟩
  rw [free_frameBuffer, free_frameBuffer]

/-- Claim C10. When every decode call that does not fail consumes at least one byte, each
pass of the loop of `decodePacket` that goes on leaves a strictly smaller size, and
`decodePacket` ends: there is a result that every fuel above the packet size gives. -/
theorem decodePacket_loop_terminates (s : AudioFileDecoder) (originalPacket : AVPacket)
    (a : AudioData)
    (hcons : ∀ d, originalPacket.data = some d →
      ∀ j, 0 ≤ (d j).bytesConsumed → 1 ≤ (d j).bytesConsumed) :
    (∀ d j size size1 a0 a1, originalPacket.data = some d →
      decodePacketBody s (d j) size a0 = .next size1 a1 → size1 < size) ∧
    ∃ r, ∀ fuel, originalPacket.size.toNat < fuel →
      decodePacket s fuel originalPacket a = some r := by
  constructor
  · intro d j size size1 a0 a1 hd hb
    obtain ⟨h0, h1⟩ := body_next_size s (d j) size size1 a0 a1 hb
    have := hcons d hd j h0
    omega
  · cases hd : originalPacket.data with
    | none =>
      by_cases hs : originalPacket.size > 0
      · exact ⟨.nullDeref, fun fuel _ => by simp [decodePacket, hd, hs]⟩
      · exact ⟨.ret true a, fun fuel _ => by simp [decodePacket, hd, hs]⟩
    | some d =>
      obtain ⟨r, hr⟩ := loop_total s d (hcons d hd) (originalPacket.size.toNat + 1) 0
        originalPacket.size a (Nat.lt_succ_self _)
      refine ⟨r, fun fuel hfuel => ?_⟩
      obtain ⟨m, rfl⟩ : ∃ m, fuel = originalPacket.size.toNat + 1 + m :=
        ⟨fuel - (originalPacket.size.toNat + 1), by omega⟩
      simp only [decodePacket, hd]
      exact loop_mono s d _ 0 _ a r hr m

/-- Witness for C10: the two-frame packet. -/
theorem decodePacket_loop_terminates_witness :
    ∃ r, ∀ fuel, goodPacket.size.toNat < fuel →
      decodePacket (s16Session 0 []) fuel goodPacket AudioData.new = some r :=
  (decodePacket_loop_terminates (s16Session 0 []) goodPacket AudioData.new
    (by
      intro d hd j _
      obtain rfl : twoFrames = d := Option.some.inj hd
      unfold twoFrames
      split <;> decide)).2

end KeyFinder
